import Mathlib

/-!
Verification development for the backend-devhub repository.

The definitions below are a shallow embedding of the project lifecycle,
asset lifecycle and scan orchestration code:

  * src/services/antivirus.service.ts  (AntivirusService: rateLimitCheck,
    checkHashReport, uploadFileForScan, getScanReport, processEngineResults,
    scanWithVirusTotal);
  * src/services/upload.service.ts  (moveCloudinaryFiles, deleteFromCloudinary,
    getFileInfo), modelled as an abstract object-storage state: a list of
    stored public ids, a per-source-id move success oracle and an info oracle;
  * src/models/Project.ts  (Project document with draft shadow, applyDraft,
    clearDraft);
  * the admin controller (publishProject, approveDraft, rejectDraft) and the
    projects controller (updateProject published branch, createProjectWithFiles).

External services (Cloudinary, VirusTotal, MongoDB persistence) enter the
embedding only through their interface behaviour, supplied by environment
records of oracles; hidden network failures are the oracle outcomes. Database
writes are modelled by returning the updated Project value. Logging and
notification calls, which have no effect on the persisted state or storage,
are not modelled. Dates are modelled as Nat instants supplied by the
environment; byte buffers as List Nat.
-/

namespace DevHub

/-- JS truthiness of an optional string: undefined and the empty string are
falsy, every other string is truthy. -/
def tstr : Option String → Bool
  | none => false
  | some s => s != ""

/-- Substring test on character lists: pat occurs somewhere inside l. -/
def charsHaveSub (pat : List Char) : List Char → Bool
  | [] => pat.isEmpty
  | c :: rest => pat.isPrefixOf (c :: rest) || charsHaveSub pat rest

/-- The JS String.prototype.includes test used by the controllers to decide
whether a Cloudinary public id lives in a staging folder. -/
def strIncludes (s pat : String) : Bool := charsHaveSub pat.data s.data

/-- Structural split of a character list at a separator character, the
element lists in order (the shape of JS String.prototype.split). -/
def splitChars (sep : Char) : List Char → List (List Char)
  | [] => [[]]
  | c :: rest =>
    if c = sep then [] :: splitChars sep rest
    else
      match splitChars sep rest with
      | [] => [[c]]
      | h :: t => (c :: h) :: t

/-- The public id produced by moveCloudinaryFiles in upload.service.ts:
the new folder joined with the source file name stripped of its extension
(public_id is fileNameWithExt.split(".")[0] inside folder newFolder). -/
def movedId (src folder : String) : String :=
  folder ++ "/" ++
    String.mk ((splitChars '.' ((splitChars '/' src.data).getLastD src.data)).headD [])

/-! ## Antivirus service (src/services/antivirus.service.ts) -/

/-- One engine entry of a VirusTotal report: the detected flag and the
optional result label (the result field may be absent in the API response). -/
structure VTEngine where
  detected : Bool
  result : Option String
deriving DecidableEq, Repr

/-- A completed VirusTotal file report (response_code 1). -/
structure VTReport where
  scan_id : String
  scan_date : String
  positives : Nat
  total : Nat
  scans : List (String × VTEngine)
deriving DecidableEq, Repr

/-- One entry of VirusTotalScanResult.details.engines. -/
structure VTEngineEntry where
  name : String
  detected : Bool
  result : Option String
deriving DecidableEq, Repr

/-- VirusTotalScanResult.details. -/
structure VTDetails where
  positives : Nat
  total : Nat
  scanDate : String
  engines : List VTEngineEntry
deriving DecidableEq, Repr

/-- The VirusTotalScanResult record returned by scanWithVirusTotal. -/
structure VTScanResult where
  isSafe : Bool
  scanId : String
  threats : List String
  details : Option VTDetails
  errorMsg : Option String
deriving DecidableEq, Repr

/-- The mutable counters of the AntivirusService singleton. -/
structure AVState where
  lastRequestTime : Nat
  requestCount : Nat
  dailyRequestCount : Nat
  lastResetDate : String
deriving DecidableEq, Repr

/-- Outcome of one report-poll attempt against the VirusTotal report endpoint. -/
inductive PollOut
  | completed
  | inProgress
  | httpErr
deriving DecidableEq, Repr

/-- The externally visible calls the service makes to VirusTotal: a hash
lookup, a file submission, a report poll. -/
inductive ScanEv
  | lookup
  | upload
  | poll
deriving DecidableEq, Repr

/-- Environment of a scanWithVirusTotal run: configuration plus the behaviour
of the external world. hashHex models crypto sha256 hex digest (a pure
function of the buffer, so byte-identical buffers hash identically);
uploadOutcome is the result of the file/scan POST; pollRes the per-attempt
report outcome; reportFor the completed report the service holds for a given
content hash. -/
structure AVEnv where
  apiKey : String
  currentDate : String
  now : Nat
  hashHex : List Nat → String
  lookupHttpOk : Bool
  uploadOutcome : Except String String
  pollRes : Nat → PollOut
  reportFor : String → VTReport

/-- The completed-report store of the scanning service, keyed by resource
(content hash or scan id); lookup consults it, a finished scan populates it. -/
structure ScanSvc where
  reports : String → Option VTReport

/-- A finished scan leaves the service holding the completed report under
the content hash and the scan id. -/
def registerReport (svc : ScanSvc) (h0 : String) (rep : VTReport) : ScanSvc :=
  { reports := fun h => if h = h0 ∨ h = rep.scan_id then some rep else svc.reports h }

/-- rateLimitCheck: reset the daily counter at day rollover, throw (false)
when the daily ceiling of 500 is reached, otherwise wait out the
inter-request delay and bump the counters. Waiting does not advance modelled
time; lastRequestTime is set to the current instant. -/
def rateLimitCheck (env : AVEnv) (st : AVState) : AVState × Bool :=
  let st1 := if st.lastResetDate ≠ env.currentDate then
    { st with dailyRequestCount := 0, lastResetDate := env.currentDate }
  else st
  if st1.dailyRequestCount ≥ 500 then (st1, false)
  else
    ({ st1 with lastRequestTime := env.now,
                requestCount := st1.requestCount + 1,
                dailyRequestCount := st1.dailyRequestCount + 1 }, true)

/-- One step of processEngineResults: push "engine: result" when the engine
detected the content and supplied a truthy result label. -/
def perStep (threats : List String) (er : String × VTEngine) : List String :=
  if er.2.detected = true ∧ tstr er.2.result = true then
    threats ++ [er.1 ++ ": " ++ er.2.result.getD ""]
  else threats

/-- processEngineResults: collect "engine: result" over the report scans. -/
def processEngineResults (scans : List (String × VTEngine)) : List String :=
  scans.foldl perStep []

/-- checkHashReport: one rateLimitCheck (its quota throw is caught and turned
into null), then a GET on the report endpoint keyed by hash; null unless the
response is ok and carries a completed report. -/
def checkHashReport (env : AVEnv) (st : AVState) (svc : ScanSvc) (h : String) :
    Option VTReport × AVState × List ScanEv :=
  match rateLimitCheck env st with
  | (st1, false) => (none, st1, [])
  | (st1, true) =>
    if env.lookupHttpOk = true then
      match svc.reports h with
      | some r => (some r, st1, [ScanEv.lookup])
      | none => (none, st1, [ScanEv.lookup])
    else (none, st1, [ScanEv.lookup])

/-- The 32MB VirusTotal free-tier upload ceiling. -/
def MAX_FILE_SIZE : Nat := 32 * 1024 * 1024

/-- uploadFileForScan: rateLimitCheck (a quota throw propagates as the wrapped
upload error), the size guard, then the POST whose outcome the environment
supplies; ok carries the scan id. The upload event is emitted exactly when
the POST is dispatched. -/
def uploadFileForScan (env : AVEnv) (st : AVState) (buf : List Nat) :
    Except String String × AVState × List ScanEv :=
  match rateLimitCheck env st with
  | (st1, false) =>
    (Except.error "Error al subir archivo para escaneo: limite diario de escaneo alcanzado", st1, [])
  | (st1, true) =>
    if buf.length > MAX_FILE_SIZE then
      (Except.error "Error al subir archivo para escaneo: archivo demasiado grande", st1, [])
    else
      match env.uploadOutcome with
      | Except.error e =>
        (Except.error ("Error al subir archivo para escaneo: " ++ e), st1, [ScanEv.upload])
      | Except.ok sid => (Except.ok sid, st1, [ScanEv.upload])

/-- getScanReport polling loop (maxRetries 10): each attempt runs
rateLimitCheck and a GET; a completed response returns the report the service
holds for the scanned content, in-progress retries with bounded attempts, an
http error retries through the catch block until the retry budget is spent.
The fuel argument bounds the recursion and is given more than the 10 retries
the source allows, so the retries guard is what actually terminates runs. -/
def getScanReportLoop (env : AVEnv) (h : String) :
    AVState → Nat → Nat → Except String VTReport × AVState × List ScanEv
  | st, _, 0 => (Except.error "Maximo numero de intentos alcanzado", st, [])
  | st, retries, fuel + 1 =>
    if retries ≥ 10 then (Except.error "Maximo numero de intentos alcanzado", st, [])
    else
      match rateLimitCheck env st with
      | (st1, false) =>
        if retries ≥ 9 then
          (Except.error "Error al obtener reporte de escaneo: limite diario", st1, [])
        else getScanReportLoop env h st1 (retries + 1) fuel
      | (st1, true) =>
        match env.pollRes retries with
        | PollOut.completed => (Except.ok (env.reportFor h), st1, [ScanEv.poll])
        | PollOut.inProgress =>
          if retries + 1 ≥ 10 then
            (Except.error "Error al obtener reporte de escaneo: timeout", st1, [ScanEv.poll])
          else
            match getScanReportLoop env h st1 (retries + 1) fuel with
            | (r, st2, tr) => (r, st2, ScanEv.poll :: tr)
        | PollOut.httpErr =>
          if retries ≥ 9 then
            (Except.error "Error al obtener reporte de escaneo: http", st1, [ScanEv.poll])
          else
            match getScanReportLoop env h st1 (retries + 1) fuel with
            | (r, st2, tr) => (r, st2, ScanEv.poll :: tr)

/-- The verdict scanWithVirusTotal builds from a completed report: isSafe
iff the positives count is zero, threats from processEngineResults, details
copied over. -/
def mkVerdict (report : VTReport) : VTScanResult :=
  { isSafe := report.positives == 0
    scanId := report.scan_id
    threats := processEngineResults report.scans
    details := some
      { positives := report.positives
        total := report.total
        scanDate := report.scan_date
        engines := report.scans.map (fun er =>
          { name := er.1, detected := er.2.detected, result := er.2.result }) }
    errorMsg := none }

/-- The fail-open verdict of the outer catch block: the file is allowed and
the error recorded. -/
def errVerdict (msg : String) : VTScanResult :=
  { isSafe := true, scanId := "error", threats := [], details := none, errorMsg := some msg }

/-- The fail-open verdict returned when no API key is configured. -/
def noApiKeyVerdict : VTScanResult :=
  { isSafe := true, scanId := "no-api-key", threats := [], details := none,
    errorMsg := some "API key not configured" }

/-- The fail-open verdict returned when the daily ceiling was already hit. -/
def dailyLimitVerdict : VTScanResult :=
  { isSafe := true, scanId := "daily-limit-reached", threats := [], details := none,
    errorMsg := some "Limite diario alcanzado (500/500). Tu proyecto sera revisado pronto por un administrador." }

/-- scanWithVirusTotal: no API key short-circuits fail-open; a daily counter
at its ceiling short-circuits fail-open; otherwise hash the buffer, consult
the hash lookup, and only on a miss upload and poll; every thrown error of
the inner calls is caught and turned into the fail-open error verdict. A
finished scan registers its report with the service keyed by content hash
and scan id, which later lookups observe. Returns verdict, counters,
service store and the trace of external calls. -/
def scanWithVirusTotal (env : AVEnv) (st : AVState) (svc : ScanSvc)
    (buf : List Nat) (_filename : String) :
    VTScanResult × AVState × ScanSvc × List ScanEv :=
  if env.apiKey = "" then (noApiKeyVerdict, st, svc, [])
  else if st.dailyRequestCount ≥ 500 then (dailyLimitVerdict, st, svc, [])
  else
    match checkHashReport env st svc (env.hashHex buf) with
    | (some report, st1, tr1) => (mkVerdict report, st1, svc, tr1)
    | (none, st1, tr1) =>
      match uploadFileForScan env st1 buf with
      | (Except.error e, st2, tr2) => (errVerdict e, st2, svc, tr1 ++ tr2)
      | (Except.ok _, st2, tr2) =>
        match getScanReportLoop env (env.hashHex buf) st2 0 20 with
        | (Except.error e, st3, tr3) => (errVerdict e, st3, svc, tr1 ++ tr2 ++ tr3)
        | (Except.ok report, st3, tr3) =>
          (mkVerdict report, st3, registerReport svc (env.hashHex buf) report,
           tr1 ++ tr2 ++ tr3)

/-! ## Project data model (src/models/Project.ts) -/

/-- Project.status. -/
inductive PStatus
  | pending
  | needs_author_review
  | published
  | rejected
deriving DecidableEq, Repr

/-- Project.draftStatus. -/
inductive DraftSt
  | none
  | pending
  | rejected
deriving DecidableEq, Repr

/-- A stored binary reference (the files.code / files.docPdf shape). -/
structure StoredFile where
  type : String
  publicId : String
  url : String
  fileName : String
deriving DecidableEq, Repr

/-- The files map of a project; absent members model undefined. -/
structure ProjFiles where
  app : Option StoredFile
  code : Option StoredFile
  docPdf : Option StoredFile
deriving DecidableEq, Repr

/-- The DraftChanges shadow: only fields explicitly present are proposed. -/
structure DraftChanges where
  title : Option String
  shortDesc : Option String
  longDesc : Option String
  iconPublicId : Option String
  iconUrl : Option String
  imagePublicIds : Option (List String)
  imageUrls : Option (List String)
  files : Option ProjFiles
deriving DecidableEq, Repr

/-- The Project document, restricted to the fields the lifecycle code reads
and writes (categories, platforms, participants, ratings and company linkage
are untouched by the claims and omitted). -/
structure Project where
  id : String
  title : String
  shortDesc : String
  longDesc : String
  status : PStatus
  iconPublicId : Option String
  iconUrl : String
  imagePublicIds : List String
  imageUrls : List String
  files : ProjFiles
  draftStatus : DraftSt
  draft : Option DraftChanges
  draftSubmittedAt : Option Nat
  draftFeedback : Option String
  draftRejectedAt : Option Nat
  publishedAt : Option Nat
deriving DecidableEq, Repr

/-- Project.applyDraft: overwrite each live field for which the draft shadow
holds a value; image lists only when explicitly present and non-empty; file
members one by one. -/
def applyDraft (p : Project) : Project :=
  match p.draft with
  | none => p
  | some d =>
    let p1 := match d.title with | some t => { p with title := t } | none => p
    let p2 := match d.shortDesc with | some s => { p1 with shortDesc := s } | none => p1
    let p3 := match d.longDesc with | some s => { p2 with longDesc := s } | none => p2
    let p4 := match d.iconPublicId with | some s => { p3 with iconPublicId := some s } | none => p3
    let p5 := match d.iconUrl with | some s => { p4 with iconUrl := s } | none => p4
    let p6 := match d.imagePublicIds with
              | some l => if l.length > 0 then { p5 with imagePublicIds := l } else p5
              | none => p5
    let p7 := match d.imageUrls with
              | some l => if l.length > 0 then { p6 with imageUrls := l } else p6
              | none => p6
    match d.files with
    | none => p7
    | some df =>
      let p8 := match df.app with
                | some f => { p7 with files := { p7.files with app := some f } }
                | none => p7
      let p9 := match df.code with
                | some f => { p8 with files := { p8.files with code := some f } }
                | none => p8
      match df.docPdf with
      | some f => { p9 with files := { p9.files with docPdf := some f } }
      | none => p9

/-- Project.clearDraft. -/
def clearDraft (p : Project) : Project :=
  { p with draft := none, draftStatus := DraftSt.none,
           draftSubmittedAt := none, draftFeedback := none, draftRejectedAt := none }

/-! ## Object storage model (src/services/upload.service.ts)

Storage is the list of public ids currently stored. moveCloudinaryFiles is
copy-then-destroy of one id; its failure (resource fetch or copy upload
failing) is modelled as leaving storage untouched, per-source-id success
supplied by the moveOk oracle. getFileInfo returns the secure url or none. -/

/-- Environment of the storage-touching controllers. -/
structure StoreEnv where
  moveOk : String → Bool
  info : String → Option String
  now : Nat

/-- One moveCloudinaryFiles attempt: on success the file is re-homed under
the new folder (old id gone, moved id present) and the new public id
returned; on failure the call throws and storage is unchanged. -/
def tryMove (env : StoreEnv) (store : List String) (src folder : String) :
    Option String × List String :=
  if env.moveOk src = true then
    (some (movedId src folder), movedId src folder :: store.erase src)
  else (none, store)

/-- Permanent folder for a project asset kind: softstore/projects/id/kind. -/
def projFolder (pid kind : String) : String := "softstore/projects/" ++ pid ++ "/" ++ kind

/-! ## publishProject (admin controller)

The controller sets status published and publishedAt first, then moves each
asset whose public id contains /temp/ into the permanent project folder.
Every per-asset failure is caught and logged and the publication proceeds
(the source comments the outer catch with: do not block the publication). -/

/-- publishProject icon block: move a staged icon, update its id and url on
success, swallow a failure. Returns project, storage and the filesMoved flag. -/
def publishIcon (env : StoreEnv) (p : Project) (store : List String) :
    Project × List String × Bool :=
  match p.iconPublicId with
  | some ic =>
    if strIncludes ic "/temp/" = true then
      match tryMove env store ic (projFolder p.id "icons") with
      | (some newId, store1) =>
        let p1 := { p with iconPublicId := some newId }
        let p2 := match env.info newId with
                  | some u => { p1 with iconUrl := u }
                  | none => p1
        (p2, store1, true)
      | (none, store1) => (p, store1, false)
    else (p, store, false)
  | none => (p, store, false)

/-- One iteration of the publishProject images loop: a staged image is moved
(keeping the original id when its move fails, with the original url looked up
by indexOf), an unstaged image is passed through. Accumulates the rebuilt id
and url lists, the filesMoved flag and storage. -/
def pubImgStep (env : StoreEnv) (p : Project)
    (acc : List String × List String × Bool × List String) (imageId : String) :
    List String × List String × Bool × List String :=
  match acc with
  | (mi, mu, fm, store) =>
    if strIncludes imageId "/temp/" = true then
      match tryMove env store imageId (projFolder p.id "images") with
      | (some newId, store1) =>
        (mi ++ [newId], mu ++ [((env.info newId).getD "")], true, store1)
      | (none, store1) =>
        (mi ++ [imageId], mu ++ [(p.imageUrls.getD (p.imagePublicIds.indexOf imageId) "")], fm, store1)
    else
      (mi ++ [imageId], mu ++ [(p.imageUrls.getD (p.imagePublicIds.indexOf imageId) "")], fm, store)

/-- publishProject images block: run the loop when there are images and
assign the rebuilt lists only when the filesMoved flag (shared with the icon
block) is set. -/
def publishImages (env : StoreEnv) (p : Project) (store : List String) (fm : Bool) :
    Project × List String × Bool :=
  if p.imagePublicIds.length > 0 then
    match p.imagePublicIds.foldl (pubImgStep env p) ([], [], fm, store) with
    | (mi, mu, fm1, store1) =>
      if fm1 = true then ({ p with imagePublicIds := mi, imageUrls := mu }, store1, fm1)
      else (p, store1, fm1)
  else (p, store, fm)

/-- publishProject code block: move a staged code archive, swallow a failure. -/
def publishCode (env : StoreEnv) (p : Project) (store : List String) (fm : Bool) :
    Project × List String × Bool :=
  match p.files.code with
  | some c =>
    if strIncludes c.publicId "/temp/" = true then
      match tryMove env store c.publicId (projFolder p.id "code") with
      | (some newId, store1) =>
        let c1 := { c with publicId := newId }
        let c2 := match env.info newId with
                  | some u => { c1 with url := u }
                  | none => c1
        ({ p with files := { p.files with code := some c2 } }, store1, true)
      | (none, store1) => (p, store1, fm)
    else (p, store, fm)
  | none => (p, store, fm)

/-- publishProject doc block: move a staged documentation pdf, swallow a
failure. -/
def publishDoc (env : StoreEnv) (p : Project) (store : List String) (fm : Bool) :
    Project × List String × Bool :=
  match p.files.docPdf with
  | some c =>
    if strIncludes c.publicId "/temp/" = true then
      match tryMove env store c.publicId (projFolder p.id "docs") with
      | (some newId, store1) =>
        let c1 := { c with publicId := newId }
        let c2 := match env.info newId with
                  | some u => { c1 with url := u }
                  | none => c1
        ({ p with files := { p.files with docPdf := some c2 } }, store1, true)
      | (none, store1) => (p, store1, fm)
    else (p, store, fm)
  | none => (p, store, fm)

/-- publishProject: stamp status published and publishedAt, then run the four
per-kind move blocks in source order (icon, images, code, doc), each of which
swallows its own failures; finally the project is saved as mutated. There is
no status precondition and no rollback anywhere on this path. -/
def publishProject (env : StoreEnv) (p : Project) (store : List String) :
    Project × List String :=
  let r1 := publishIcon env { p with status := PStatus.published, publishedAt := some env.now }
    store
  let r2 := publishImages env r1.1 r1.2.1 r1.2.2
  let r3 := publishCode env r2.1 r2.2.1 r2.2.2
  let r4 := publishDoc env r3.1 r3.2.1 r3.2.2
  (r4.1, r4.2.1)

/-! ## approveDraft (admin controller)

Storage events of the draft-approval path: a moveCloudinaryFiles call with
its outcome, and a deleteFromCloudinary call. -/

/-- A storage call made by approveDraft, in execution order. -/
inductive StEv
  | move (src : String) (ok : Bool)
  | del (pid : String)
deriving DecidableEq, Repr

/-- approveDraft step 1, icon: a draft icon living under /updates/ is moved
into the permanent icons folder; a failed move throws (aborting the whole
approval). -/
def approveIconMove (env : StoreEnv) (pid : String) (draftIcon : Option String)
    (p : Project) (store : List String) :
    Except String Project × List String × List StEv :=
  match draftIcon with
  | some ic =>
    if strIncludes ic "/updates/" = true then
      if env.moveOk ic = true then
        let nid := movedId ic (projFolder pid "icons")
        let store1 := nid :: store.erase ic
        let p1 := { p with iconPublicId := some nid }
        let p2 := match env.info nid with
                  | some u => { p1 with iconUrl := u }
                  | none => p1
        (Except.ok p2, store1, [StEv.move ic true])
      else (Except.error "move failed", store, [StEv.move ic false])
    else (Except.ok p, store, [])
  | none => (Except.ok p, store, [])

/-- approveDraft step 1, images loop: each draft image under /updates/ is
moved (a failure throws); the moved url is pushed only when getFileInfo
returns one; an image not under /updates/ keeps its id and gets the url at
its index in the draft list. Returns the rebuilt id and url lists. -/
def moveImgsA (env : StoreEnv) (pid : String) (p : Project) (draftImages : List String) :
    List String → List String →
    Except String (List String × List String) × List String × List StEv
  | [], store => (Except.ok ([], []), store, [])
  | imgId :: rest, store =>
    if strIncludes imgId "/updates/" = true then
      if env.moveOk imgId = true then
        let nid := movedId imgId (projFolder pid "images")
        let store1 := nid :: store.erase imgId
        match moveImgsA env pid p draftImages rest store1 with
        | (Except.ok (mi, mu), st2, tr) =>
          let mu1 := match env.info nid with
                     | some u => u :: mu
                     | none => mu
          (Except.ok (nid :: mi, mu1), st2, StEv.move imgId true :: tr)
        | (Except.error e, st2, tr) => (Except.error e, st2, StEv.move imgId true :: tr)
      else (Except.error "move failed", store, [StEv.move imgId false])
    else
      match moveImgsA env pid p draftImages rest store with
      | (Except.ok (mi, mu), st2, tr) =>
        (Except.ok (imgId :: mi, (p.imageUrls.getD (draftImages.indexOf imgId) "") :: mu), st2, tr)
      | (Except.error e, st2, tr) => (Except.error e, st2, tr)

/-- approveDraft step 1, images block: when the draft carries images, run the
loop and assign the rebuilt lists to the project. -/
def approveImagesMove (env : StoreEnv) (pid : String) (draftImages : List String)
    (p : Project) (store : List String) :
    Except String Project × List String × List StEv :=
  if draftImages.length > 0 then
    match moveImgsA env pid p draftImages draftImages store with
    | (Except.ok (mi, mu), store1, tr) =>
      (Except.ok { p with imagePublicIds := mi, imageUrls := mu }, store1, tr)
    | (Except.error e, store1, tr) => (Except.error e, store1, tr)
  else (Except.ok p, store, [])

/-- approveDraft step 1, code: a draft code archive under /updates/ is moved;
the project record is created when missing (fileName from the draft, default
code) or its publicId updated; a failed move throws. -/
def approveCodeMove (env : StoreEnv) (pid : String) (draftCode : Option String)
    (draftCodeName : Option String) (p : Project) (store : List String) :
    Except String Project × List String × List StEv :=
  match draftCode with
  | some dc =>
    if strIncludes dc "/updates/" = true then
      if env.moveOk dc = true then
        let nid := movedId dc (projFolder pid "code")
        let store1 := nid :: store.erase dc
        let c1 : StoredFile :=
          match p.files.code with
          | some c => { c with publicId := nid }
          | none => { type := "cloudinary", publicId := nid, url := "",
                      fileName := draftCodeName.getD "code" }
        let c2 := match env.info nid with
                  | some u => { c1 with url := u }
                  | none => c1
        (Except.ok { p with files := { p.files with code := some c2 } }, store1,
          [StEv.move dc true])
      else (Except.error "move failed", store, [StEv.move dc false])
    else (Except.ok p, store, [])
  | none => (Except.ok p, store, [])

/-- approveDraft step 1, doc: like the code step with the docs folder and the
default file name doc.pdf. -/
def approveDocMove (env : StoreEnv) (pid : String) (draftDoc : Option String)
    (draftDocName : Option String) (p : Project) (store : List String) :
    Except String Project × List String × List StEv :=
  match draftDoc with
  | some dd =>
    if strIncludes dd "/updates/" = true then
      if env.moveOk dd = true then
        let nid := movedId dd (projFolder pid "docs")
        let store1 := nid :: store.erase dd
        let c1 : StoredFile :=
          match p.files.docPdf with
          | some c => { c with publicId := nid }
          | none => { type := "cloudinary", publicId := nid, url := "",
                      fileName := draftDocName.getD "doc.pdf" }
        let c2 := match env.info nid with
                  | some u => { c1 with url := u }
                  | none => c1
        (Except.ok { p with files := { p.files with docPdf := some c2 } }, store1,
          [StEv.move dd true])
      else (Except.error "move failed", store, [StEv.move dd false])
    else (Except.ok p, store, [])
  | none => (Except.ok p, store, [])

/-- approveDraft step 2: the superseded live ids to delete, computed from the
values captured before applyDraft ran: the old icon when the draft replaced
it, every old image the draft list no longer references, the old code and doc
archives when replaced. Truthiness of the source guards means the empty
string never qualifies. -/
def filesToDeleteApprove (draftIcon oldIcon : Option String)
    (draftImages oldImages : List String)
    (draftCode oldCode draftDoc oldDoc : Option String) : List String :=
  (match draftIcon, oldIcon with
   | some di, some oi => if di ≠ "" ∧ oi ≠ "" ∧ di ≠ oi then [oi] else []
   | _, _ => []) ++
  (if draftImages.length > 0 ∧ oldImages.length > 0 then
     oldImages.filter (fun oldImg => ! draftImages.contains oldImg)
   else []) ++
  (match draftCode, oldCode with
   | some dc, some oc => if dc ≠ "" ∧ oc ≠ "" ∧ dc ≠ oc then [oc] else []
   | _, _ => []) ++
  (match draftDoc, oldDoc with
   | some dd, some od => if dd ≠ "" ∧ od ≠ "" ∧ dd ≠ od then [od] else []
   | _, _ => [])

/-- approveDraft: guard status published and a pending draft; capture the old
and draft asset ids; applyDraft; step 1 moves every /updates/ asset of the
draft, any failure aborting with the wrapped move error before any deletion;
step 2 deletes the superseded old ids; clearDraft and save. Returns the
result, the storage and the trace of storage calls in execution order. -/
def approveDraft (env : StoreEnv) (p : Project) (store : List String) :
    Except String Project × List String × List StEv :=
  if p.status ≠ PStatus.published then
    (Except.error "Solo se pueden aprobar borradores de proyectos publicados", store, [])
  else
    match p.draft with
    | none => (Except.error "No hay borrador pendiente para este proyecto", store, [])
    | some d =>
      if p.draftStatus ≠ DraftSt.pending then
        (Except.error "No hay borrador pendiente para este proyecto", store, [])
      else
        let oldIcon := p.iconPublicId
        let oldImages := p.imagePublicIds
        let oldCode := p.files.code.map (fun c => c.publicId)
        let oldDoc := p.files.docPdf.map (fun c => c.publicId)
        let draftIcon := d.iconPublicId
        let draftImages := d.imagePublicIds.getD []
        let draftCode := (d.files.bind (fun df => df.code)).map (fun c => c.publicId)
        let draftCodeName := (d.files.bind (fun df => df.code)).map (fun c => c.fileName)
        let draftDoc := (d.files.bind (fun df => df.docPdf)).map (fun c => c.publicId)
        let draftDocName := (d.files.bind (fun df => df.docPdf)).map (fun c => c.fileName)
        let pA := applyDraft p
        match approveIconMove env p.id draftIcon pA store with
        | (Except.error _, storeE, trE) =>
          (Except.error "No se pudieron mover los archivos del borrador", storeE, trE)
        | (Except.ok p1, store1, tr1) =>
          match approveImagesMove env p.id draftImages p1 store1 with
          | (Except.error _, storeE, trE) =>
            (Except.error "No se pudieron mover los archivos del borrador", storeE, tr1 ++ trE)
          | (Except.ok p2, store2, tr2) =>
            match approveCodeMove env p.id draftCode draftCodeName p2 store2 with
            | (Except.error _, storeE, trE) =>
              (Except.error "No se pudieron mover los archivos del borrador", storeE,
                tr1 ++ tr2 ++ trE)
            | (Except.ok p3, store3, tr3) =>
              match approveDocMove env p.id draftDoc draftDocName p3 store3 with
              | (Except.error _, storeE, trE) =>
                (Except.error "No se pudieron mover los archivos del borrador", storeE,
                  tr1 ++ tr2 ++ tr3 ++ trE)
              | (Except.ok p4, store4, tr4) =>
                let ftd := filesToDeleteApprove draftIcon oldIcon draftImages oldImages
                  draftCode oldCode draftDoc oldDoc
                let store5 := ftd.foldl (fun s i => s.erase i) store4
                (Except.ok (clearDraft p4), store5,
                  tr1 ++ tr2 ++ tr3 ++ tr4 ++ ftd.map StEv.del)

/-- The draft asset ids approveDraft must move (those under /updates/), as a
function of the pending draft. -/
def updatesOnly (o : Option String) : List String :=
  match o with
  | some s => if strIncludes s "/updates/" = true then [s] else []
  | none => []

/-- All draft-staging asset ids of the pending draft of p, in the order the
approval path moves them. -/
def requiredMovesOf (p : Project) : List String :=
  match p.draft with
  | none => []
  | some d =>
    updatesOnly d.iconPublicId ++
    (d.imagePublicIds.getD []).filter (fun i => strIncludes i "/updates/") ++
    updatesOnly ((d.files.bind (fun df => df.code)).map (fun c => c.publicId)) ++
    updatesOnly ((d.files.bind (fun df => df.docPdf)).map (fun c => c.publicId))

/-! ## rejectDraft (admin controller) -/

/-- The draft icon id deleted on rejection, when the live icon id differs
(truthiness of the guard excludes an empty string id). -/
def rejIconDel (p : Project) (d : DraftChanges) : List String :=
  match d.iconPublicId with
  | some v => if v ≠ "" ∧ some v ≠ p.iconPublicId then [v] else []
  | none => []

/-- The draft image ids deleted on rejection: those not in the live list. -/
def rejImagesDel (p : Project) (d : DraftChanges) : List String :=
  match d.imagePublicIds with
  | some l => if l.length > 0 then l.filter (fun i => ! p.imagePublicIds.contains i) else []
  | none => []

/-- The draft code file id deleted on rejection, when the live code id differs. -/
def rejCodeDel (p : Project) (d : DraftChanges) : List String :=
  match d.files with
  | some df =>
    match df.code with
    | some c =>
      if c.publicId ≠ "" ∧ p.files.code.map StoredFile.publicId ≠ some c.publicId then
        [c.publicId]
      else []
    | none => []
  | none => []

/-- The draft doc file id deleted on rejection, when the live doc id differs. -/
def rejDocDel (p : Project) (d : DraftChanges) : List String :=
  match d.files with
  | some df =>
    match df.docPdf with
    | some dd =>
      if dd.publicId ≠ "" ∧ p.files.docPdf.map StoredFile.publicId ≠ some dd.publicId then
        [dd.publicId]
      else []
    | none => []
  | none => []

/-- The draft asset ids rejectDraft deletes: the draft icon, images, code and
doc ids that the corresponding live field does not also reference (truthiness
of the guards excludes empty string ids; an empty draft image list deletes
nothing). -/
def filesToDeleteReject (p : Project) (d : DraftChanges) : List String :=
  rejIconDel p d ++ rejImagesDel p d ++ rejCodeDel p d ++ rejDocDel p d

/-- JavaScript String.prototype.trim: strip leading and trailing whitespace
characters from the string. -/
def jsTrim (s : String) : String :=
  String.mk (((s.data.dropWhile Char.isWhitespace).reverse.dropWhile Char.isWhitespace).reverse)

/-- rejectDraft: guard a non-empty trimmed feedback, status published and a
pending draft; delete from storage every draft-only asset id; mark the draft
rejected with the trimmed feedback and a timestamp; the draft shadow itself
is kept (clearRejectedDraft removes it later). Returns the result, the
storage and the list of deleted ids. -/
def rejectDraft (env : StoreEnv) (feedback : String) (p : Project) (store : List String) :
    Except String Project × List String × List String :=
  if jsTrim feedback = "" then
    (Except.error "Debe proporcionar una razon para rechazar el borrador", store, [])
  else if p.status ≠ PStatus.published then
    (Except.error "Solo se pueden rechazar borradores de proyectos publicados", store, [])
  else
    match p.draft with
    | none => (Except.error "No hay borrador pendiente para este proyecto", store, [])
    | some d =>
      if p.draftStatus ≠ DraftSt.pending then
        (Except.error "No hay borrador pendiente para este proyecto", store, [])
      else
        let ftd := filesToDeleteReject p d
        let store1 := ftd.foldl (fun s i => s.erase i) store
        let p1 := { p with draftStatus := DraftSt.rejected,
                           draftFeedback := some (jsTrim feedback),
                           draftRejectedAt := some env.now }
        (Except.ok p1, store1, ftd)

/-! ## updateProject, published non-admin branch (projects controller)

The branch builds a draft diff against the live fields and stores it as the
draft shadow. Scalar fields are compared to the live value (truthy text
fields, presence-checked icon and image fields); any files entry present in
the request body is taken over and counts as a change without comparison. -/

/-- The files part of the update request body; a present member is the
submitted replacement value. -/
structure UpdFiles where
  app : Option StoredFile
  code : Option StoredFile
  docPdf : Option StoredFile
deriving DecidableEq, Repr

/-- The update request body fields the published branch reads. -/
structure UpdBody where
  title : Option String
  shortDesc : Option String
  longDesc : Option String
  iconPublicId : Option String
  iconUrl : Option String
  imagePublicIds : Option (List String)
  imageUrls : Option (List String)
  files : Option UpdFiles
deriving DecidableEq, Repr

/-- The empty DraftChanges the branch starts from. -/
def emptyDraft : DraftChanges :=
  { title := none, shortDesc := none, longDesc := none, iconPublicId := none,
    iconUrl := none, imagePublicIds := none, imageUrls := none, files := none }

/-- Body title counts as changed when truthy and different from the live
title (the source guard req.body.title and a strict inequality). -/
def titleChanged (body : UpdBody) (p : Project) : Bool :=
  match body.title with
  | some t => decide (t ≠ "" ∧ t ≠ p.title)
  | none => false

/-- Body shortDesc counts as changed when truthy and different. -/
def shortDescChanged (body : UpdBody) (p : Project) : Bool :=
  match body.shortDesc with
  | some t => decide (t ≠ "" ∧ t ≠ p.shortDesc)
  | none => false

/-- Body longDesc counts as changed when truthy and different. -/
def longDescChanged (body : UpdBody) (p : Project) : Bool :=
  match body.longDesc with
  | some t => decide (t ≠ "" ∧ t ≠ p.longDesc)
  | none => false

/-- Body iconPublicId counts as changed when present (undefined check only)
and different from the live value. -/
def iconChanged (body : UpdBody) (p : Project) : Bool :=
  match body.iconPublicId with
  | some v => decide (some v ≠ p.iconPublicId)
  | none => false

/-- Body imagePublicIds counts as changed when present and its JSON encoding
differs from the live list (list equality for string lists). -/
def imagesChanged (body : UpdBody) (p : Project) : Bool :=
  match body.imagePublicIds with
  | some l => decide (l ≠ p.imagePublicIds)
  | none => false

/-- Any files member present in the body sets hasChanges, with no comparison
against the live value. -/
def filesSubmitted (body : UpdBody) : Bool :=
  match body.files with
  | some bf => bf.app.isSome || bf.code.isSome || bf.docPdf.isSome
  | none => false

/-- The hasChanges flag the branch accumulates over its six comparisons. -/
def hasChangesCalc (body : UpdBody) (p : Project) : Bool :=
  titleChanged body p || shortDescChanged body p || longDescChanged body p ||
  iconChanged body p || imagesChanged body p || filesSubmitted body

/-- The draftChanges object the branch assembles: changed scalar fields with
their companions (iconUrl, imageUrls), and, when any files member is in the
body, the full files map copied from the live project with the submitted
members overridden. -/
def buildDraft (body : UpdBody) (p : Project) : DraftChanges :=
  let d0 := emptyDraft
  let d1 := match body.title with
    | some t => if t ≠ "" ∧ t ≠ p.title then { d0 with title := some t } else d0
    | none => d0
  let d2 := match body.shortDesc with
    | some t => if t ≠ "" ∧ t ≠ p.shortDesc then { d1 with shortDesc := some t } else d1
    | none => d1
  let d3 := match body.longDesc with
    | some t => if t ≠ "" ∧ t ≠ p.longDesc then { d2 with longDesc := some t } else d2
    | none => d2
  let d4 := match body.iconPublicId with
    | some v =>
      if some v ≠ p.iconPublicId then
        { d3 with iconPublicId := some v, iconUrl := body.iconUrl }
      else d3
    | none => d3
  let d5 := match body.imagePublicIds with
    | some l =>
      if l ≠ p.imagePublicIds then
        { d4 with imagePublicIds := some l, imageUrls := body.imageUrls }
      else d4
    | none => d4
  match body.files with
  | some bf =>
    let f1 := match bf.app with
      | some fa => { p.files with app := some fa }
      | none => p.files
    let f2 := match bf.code with
      | some fc => { f1 with code := some fc }
      | none => f1
    let f3 := match bf.docPdf with
      | some fd => { f2 with docPdf := some fd }
      | none => f2
    { d5 with files := some f3 }
  | none => d5

/-- The published non-admin branch of updateProject: build the diff; with no
change fail and leave the project untouched; otherwise store the diff as the
draft shadow, set draftStatus pending with a submission timestamp and clear
any previous rejection feedback, mutating no live field. -/
def updateProjectPublished (body : UpdBody) (p : Project) (now : Nat) :
    Except String Project :=
  if hasChangesCalc body p = true then
    Except.ok { p with draft := some (buildDraft body p),
                       draftStatus := DraftSt.pending,
                       draftSubmittedAt := some now,
                       draftFeedback := none,
                       draftRejectedAt := none }
  else Except.error "No se detectaron cambios para guardar"

/-! ## createProjectWithFiles (projects controller)

The request creates the project document first, then uploads the submitted
files one kind at a time; app, code and doc buffers are scanned before their
upload and a threat verdict throws; the catch block deletes every uploaded
file and the created document. Storage ids pushed by the upload path are
tracked in order; the final storage is their reversal consed onto the prior
storage (uploads only add), and the rollback folds erase over the tracked
ids. -/

/-- One multipart file of the creation request. -/
structure UploadFile where
  originalname : String
  mimetype : String
  buffer : List Nat
deriving DecidableEq, Repr

/-- The files field of the creation request. -/
structure CreateFiles where
  icon : Option UploadFile
  images : List UploadFile
  app : Option UploadFile
  code : Option UploadFile
  doc : Option UploadFile
deriving DecidableEq, Repr

/-- The scalar fields of the creation request the embedding keeps (category,
platform and participant validation is orthogonal to the claims). -/
structure CreateBody where
  title : String
  shortDesc : String
  longDesc : String
deriving DecidableEq, Repr

/-- Environment of a creation request: the id MongoDB assigns, the scan
verdict function (antivirusService.scanWithVirusTotal, which never throws),
and the Cloudinary upload id and url generators (name generation timestamps
abstracted into the oracle). -/
structure CreateEnv where
  newId : String
  scan : List Nat → String → VTScanResult
  uploadId : String → String → String
  uploadUrl : String → String

/-- The field updates the upload phase accumulates for the project document. -/
structure CreateUpdates where
  iconPublicId : Option String
  iconUrl : Option String
  imagePublicIds : Option (List String)
  imageUrls : Option (List String)
  files : ProjFiles
deriving DecidableEq, Repr

/-- Upload-phase step for the doc pdf: scan, throw on threats, upload. -/
def uploadDocStep (env : CreateEnv) (pid : String) (files : CreateFiles)
    (upd : CreateUpdates) (ids : List String) :
    Except (String × List String) (CreateUpdates × List String) :=
  match files.doc with
  | some f =>
    let v := env.scan f.buffer f.originalname
    if v.isSafe = true then
      let fid := env.uploadId ("softstore/" ++ pid ++ "/docs") f.originalname
      let sf : StoredFile := { type := "cloudinary", publicId := fid,
                               url := env.uploadUrl fid, fileName := f.originalname }
      Except.ok ({ upd with files := { upd.files with docPdf := some sf } }, ids ++ [fid])
    else Except.error ("Documento contiene malware: " ++ String.intercalate ", " v.threats, ids)
  | none => Except.ok (upd, ids)

/-- Upload-phase step for the code archive: scan, throw on threats, upload,
then the doc step. -/
def uploadCodeStep (env : CreateEnv) (pid : String) (files : CreateFiles)
    (upd : CreateUpdates) (ids : List String) :
    Except (String × List String) (CreateUpdates × List String) :=
  match files.code with
  | some f =>
    let v := env.scan f.buffer f.originalname
    if v.isSafe = true then
      let fid := env.uploadId ("softstore/" ++ pid ++ "/code") f.originalname
      let sf : StoredFile := { type := "cloudinary", publicId := fid,
                               url := env.uploadUrl fid, fileName := f.originalname }
      uploadDocStep env pid files
        ({ upd with files := { upd.files with code := some sf } }) (ids ++ [fid])
    else Except.error ("Codigo contiene malware: " ++ String.intercalate ", " v.threats, ids)
  | none => uploadDocStep env pid files upd ids

/-- Upload-phase step for the app binary: scan, throw on threats, upload,
then the code and doc steps. -/
def uploadAppStep (env : CreateEnv) (pid : String) (files : CreateFiles)
    (upd : CreateUpdates) (ids : List String) :
    Except (String × List String) (CreateUpdates × List String) :=
  match files.app with
  | some f =>
    let v := env.scan f.buffer f.originalname
    if v.isSafe = true then
      let fid := env.uploadId ("softstore/" ++ pid ++ "/apps") f.originalname
      let sf : StoredFile := { type := "cloudinary", publicId := fid,
                               url := env.uploadUrl fid, fileName := f.originalname }
      uploadCodeStep env pid files
        ({ upd with files := { upd.files with app := some sf } }) (ids ++ [fid])
    else Except.error ("Archivo contiene malware: " ++ String.intercalate ", " v.threats, ids)
  | none => uploadCodeStep env pid files upd ids

/-- The upload phase of createProjectWithFiles: icon and up to five images
are uploaded unscanned, then app, code and doc each scan-then-upload; an
error carries the message and the ids uploaded so far. -/
def uploadPhase (env : CreateEnv) (pid : String) (files : CreateFiles) :
    Except (String × List String) (CreateUpdates × List String) :=
  let upd0 : CreateUpdates :=
    { iconPublicId := none, iconUrl := none, imagePublicIds := none, imageUrls := none,
      files := { app := none, code := none, docPdf := none } }
  let s1 := match files.icon with
    | some f =>
      let fid := env.uploadId ("softstore/" ++ pid ++ "/icons") f.originalname
      ({ upd0 with iconPublicId := some fid, iconUrl := some (env.uploadUrl fid) }, [fid])
    | none => (upd0, ([] : List String))
  let imgs := files.images.take 5
  let s2 :=
    if imgs.length > 0 then
      let pairs := imgs.map (fun f =>
        let fid := env.uploadId ("softstore/" ++ pid ++ "/images") f.originalname
        (fid, env.uploadUrl fid))
      ({ s1.1 with imagePublicIds := some (pairs.map Prod.fst),
                   imageUrls := some (pairs.map Prod.snd) }, s1.2 ++ pairs.map Prod.fst)
    else s1
  uploadAppStep env pid files s2.1 s2.2

/-- createProjectWithFiles from the point the base document is created: run
the upload phase; on success the document holds the uploaded references and
every pushed id is in storage; on any throw the catch deletes every uploaded
id and the document. The boolean reports whether the created document
remains. -/
def createProjectWithFiles (env : CreateEnv) (basic : CreateBody) (files : CreateFiles)
    (store : List String) : Except String Project × List String × Bool :=
  let pid := env.newId
  match uploadPhase env pid files with
  | Except.ok (upd, ids) =>
    let p : Project :=
      { id := pid, title := basic.title, shortDesc := basic.shortDesc,
        longDesc := basic.longDesc, status := PStatus.pending,
        iconPublicId := upd.iconPublicId,
        iconUrl := upd.iconUrl.getD "",
        imagePublicIds := upd.imagePublicIds.getD [],
        imageUrls := upd.imageUrls.getD [],
        files := upd.files,
        draftStatus := DraftSt.none, draft := none, draftSubmittedAt := none,
        draftFeedback := none, draftRejectedAt := none, publishedAt := none }
    (Except.ok p, ids.reverse ++ store, true)
  | Except.error (msg, ids) =>
    (Except.error msg, ids.foldl (fun s i => s.erase i) (ids.reverse ++ store), false)

/-- The threat verdict of the doc scan, with the message prefix of the error
the doc step throws. -/
def firstUnsafeDoc (env : CreateEnv) (files : CreateFiles) :
    Option (String × VTScanResult) :=
  match files.doc with
  | some f =>
    if (env.scan f.buffer f.originalname).isSafe = true then none
    else some ("Documento contiene malware: ", env.scan f.buffer f.originalname)
  | none => none

/-- The first threat verdict among the code and doc scans. -/
def firstUnsafeCode (env : CreateEnv) (files : CreateFiles) :
    Option (String × VTScanResult) :=
  match files.code with
  | some g =>
    if (env.scan g.buffer g.originalname).isSafe = true then firstUnsafeDoc env files
    else some ("Codigo contiene malware: ", env.scan g.buffer g.originalname)
  | none => firstUnsafeDoc env files

/-- The first threat verdict the creation path meets, with the message prefix
of the error it throws, in the source scan order app, code, doc. -/
def firstUnsafeScan (env : CreateEnv) (files : CreateFiles) :
    Option (String × VTScanResult) :=
  match files.app with
  | some f =>
    if (env.scan f.buffer f.originalname).isSafe = true then firstUnsafeCode env files
    else some ("Archivo contiene malware: ", env.scan f.buffer f.originalname)
  | none => firstUnsafeCode env files

/-! ## Concrete instances used by witnesses and counterexamples -/

/-- The counter bump rateLimitCheck performs on a successful check with no
day rollover. -/
def bump (env : AVEnv) (st : AVState) : AVState :=
  { st with lastRequestTime := env.now,
            requestCount := st.requestCount + 1,
            dailyRequestCount := st.dailyRequestCount + 1 }

/-- A report with one engine that flagged the content but supplied no result
label. -/
def c9Report : VTReport :=
  { scan_id := "sid9", scan_date := "2024-01-01", positives := 1, total := 70,
    scans := [("EngineX", { detected := true, result := none })] }

/-- A trivial clean report used as a default oracle value. -/
def cleanReport : VTReport :=
  { scan_id := "sid0", scan_date := "2024-01-01", positives := 0, total := 70, scans := [] }

/-- Environment for the quota witness. -/
def c4Env : AVEnv :=
  { apiKey := "k", currentDate := "d", now := 0, hashHex := fun _ => "h",
    lookupHttpOk := true, uploadOutcome := Except.ok "s",
    pollRes := fun _ => PollOut.completed, reportFor := fun _ => cleanReport }

/-- Counter state at the daily ceiling. -/
def c4St : AVState :=
  { lastRequestTime := 0, requestCount := 500, dailyRequestCount := 500, lastResetDate := "d" }

/-- An empty scan-service report store. -/
def c4Svc : ScanSvc := { reports := fun _ => none }

/-- Environment for the dedup witness: empty cache, one content hash H, the
service completing on the first poll. -/
def c5Env : AVEnv :=
  { apiKey := "k", currentDate := "d", now := 3, hashHex := fun _ => "H",
    lookupHttpOk := true, uploadOutcome := Except.ok "sid5",
    pollRes := fun _ => PollOut.completed, reportFor := fun _ => cleanReport }

/-- Fresh counters for the dedup witness. -/
def c5St : AVState :=
  { lastRequestTime := 0, requestCount := 0, dailyRequestCount := 0, lastResetDate := "d" }

/-- Environment for the fail-open witness: an empty cache and a service whose
completed report for the content flags one engine. -/
def c10Env : AVEnv :=
  { apiKey := "k", currentDate := "d", now := 1, hashHex := fun _ => "H",
    lookupHttpOk := true, uploadOutcome := Except.ok "sid10",
    pollRes := fun _ => PollOut.completed, reportFor := fun _ => c9Report }

/-- The same environment without an API key configured. -/
def c10EnvNoKey : AVEnv :=
  { apiKey := "", currentDate := "d", now := 1, hashHex := fun _ => "H",
    lookupHttpOk := true, uploadOutcome := Except.ok "sid10",
    pollRes := fun _ => PollOut.completed, reportFor := fun _ => c9Report }

/-- Fresh counters for the fail-open witness. -/
def c10St : AVState :=
  { lastRequestTime := 0, requestCount := 0, dailyRequestCount := 0, lastResetDate := "d" }

/-- Storage environment where every move fails except the staged code
archive. -/
def c1Env : StoreEnv :=
  { moveOk := fun s => s == "softstore/temp/code/c.zip", info := fun _ => some "u2", now := 9 }

/-- A staged code archive. -/
def c1CodeFile : StoredFile :=
  { type := "cloudinary", publicId := "softstore/temp/code/c.zip", url := "u",
    fileName := "c.zip" }

/-- A pending project with a staged icon and a staged code archive. -/
def c1Proj : Project :=
  { id := "p1", title := "T", shortDesc := "S", longDesc := "L", status := PStatus.pending,
    iconPublicId := some "softstore/temp/icons/a.png", iconUrl := "iu",
    imagePublicIds := [], imageUrls := [],
    files := { app := none, code := some c1CodeFile, docPdf := none },
    draftStatus := DraftSt.none, draft := none, draftSubmittedAt := none,
    draftFeedback := none, draftRejectedAt := none, publishedAt := none }

/-- Storage before the publication attempt: both staged assets. -/
def c1Store : List String := ["softstore/temp/icons/a.png", "softstore/temp/code/c.zip"]

/-- A rejected project with no stored assets at all. -/
def c6Proj : Project :=
  { id := "p6", title := "T", shortDesc := "S", longDesc := "L", status := PStatus.rejected,
    iconPublicId := none, iconUrl := "", imagePublicIds := [], imageUrls := [],
    files := { app := none, code := none, docPdf := none },
    draftStatus := DraftSt.none, draft := none, draftSubmittedAt := none,
    draftFeedback := none, draftRejectedAt := none, publishedAt := none }

/-- A trace consisting only of move calls. -/
def moveEvOnly (tr : List StEv) : Prop := ∀ e ∈ tr, ∃ s b, e = StEv.move s b

/-- All move calls of a trace succeeded. -/
def movesAllTrue (tr : List StEv) : Prop := ∀ s b, StEv.move s b ∈ tr → b = true

/-- A pending draft replacing the icon and proposing one new and one live
image. -/
def c7Draft : DraftChanges :=
  { title := none, shortDesc := none, longDesc := none,
    iconPublicId := some "draft-icon", iconUrl := some "diu",
    imagePublicIds := some ["live-img", "draft-img"], imageUrls := none,
    files := none }

/-- A published project carrying the pending draft c7Draft. -/
def c7Proj : Project :=
  { id := "p7", title := "T", shortDesc := "S", longDesc := "L",
    status := PStatus.published,
    iconPublicId := some "live-icon", iconUrl := "liu",
    imagePublicIds := ["live-img"], imageUrls := ["lmu"],
    files := { app := none, code := none, docPdf := none },
    draftStatus := DraftSt.pending, draft := some c7Draft,
    draftSubmittedAt := some 1, draftFeedback := none, draftRejectedAt := none,
    publishedAt := some 0 }

/-- Storage before the rejection: live and draft assets. -/
def c7Store : List String := ["live-icon", "live-img", "draft-icon", "draft-img"]

/-- The live code archive of the update counterexample project. -/
def c8File : StoredFile :=
  { type := "cloudinary", publicId := "softstore/projects/p8/code/c.zip", url := "cu",
    fileName := "c.zip" }

/-- A published project whose live code archive is c8File. -/
def c8Proj : Project :=
  { id := "p8", title := "T8", shortDesc := "S8", longDesc := "L8",
    status := PStatus.published,
    iconPublicId := some "icon8", iconUrl := "iu8",
    imagePublicIds := ["img8"], imageUrls := ["mu8"],
    files := { app := none, code := some c8File, docPdf := none },
    draftStatus := DraftSt.none, draft := none, draftSubmittedAt := none,
    draftFeedback := none, draftRejectedAt := none, publishedAt := some 2 }

/-- An update body whose only content is a files.code member byte-identical
to the live code archive. -/
def c8Body : UpdBody :=
  { title := none, shortDesc := none, longDesc := none, iconPublicId := none,
    iconUrl := none, imagePublicIds := none, imageUrls := none,
    files := some { app := none, code := some c8File, docPdf := none } }

/-- A threat verdict for the creation rollback witness. -/
def c3Verdict : VTScanResult :=
  { isSafe := false, scanId := "s3", threats := ["EngineA: Trojan", "EngineB: Worm"],
    details := none, errorMsg := none }

/-- A creation environment whose scanner flags exactly the buffer [1]. -/
def c3Env : CreateEnv :=
  { newId := "p3",
    scan := fun buf _ =>
      if buf = [1] then c3Verdict
      else { isSafe := true, scanId := "ok", threats := [], details := none,
             errorMsg := none },
    uploadId := fun folder name => folder ++ "/" ++ name,
    uploadUrl := fun fid => fid ++ ".url" }

/-- A creation request with a clean icon and app and an infected code archive. -/
def c3Files : CreateFiles :=
  { icon := some { originalname := "i.png", mimetype := "image/png", buffer := [0] },
    images := [],
    app := some { originalname := "a.apk", mimetype := "application/x", buffer := [0] },
    code := some { originalname := "c.zip", mimetype := "application/zip", buffer := [1] },
    doc := none }

/-- The scalar fields of the creation rollback witness request. -/
def c3Body : CreateBody := { title := "T3", shortDesc := "S3", longDesc := "L3" }

end DevHub

namespace DevHub

/-! ## Lemmas about processEngineResults -/

/-- Folding perStep from any accumulator appends to it. -/
theorem foldl_perStep_acc (scans : List (String × VTEngine)) :
    ∀ acc, scans.foldl perStep acc = acc ++ scans.foldl perStep [] := by
  induction scans with
  | nil => intro acc; simp
  | cons er t ih =>
    intro acc
    rw [List.foldl_cons, List.foldl_cons, ih (perStep acc er), ih (perStep [] er)]
    by_cases hc : er.2.detected = true ∧ tstr er.2.result = true
    · simp [perStep, hc]
    · simp [perStep, hc]

/-- processEngineResults as a filterMap over the engines. -/
theorem processEngineResults_eq_filterMap (scans : List (String × VTEngine)) :
    processEngineResults scans = scans.filterMap (fun er =>
      if er.2.detected = true ∧ tstr er.2.result = true then
        some (er.1 ++ ": " ++ er.2.result.getD "")
      else none) := by
  induction scans with
  | nil => rfl
  | cons er rest ih =>
    unfold processEngineResults at ih ⊢
    rw [List.foldl_cons, foldl_perStep_acc, List.filterMap_cons]
    by_cases hc : er.2.detected = true ∧ tstr er.2.result = true
    · simp [perStep, hc, ih]
    · simp [perStep, hc, ih]

/-- Membership in the threat list: exactly the engines that detected the
content and supplied a non-empty result label, rendered engine-colon-result. -/
theorem mem_processEngineResults (scans : List (String × VTEngine)) (t : String) :
    t ∈ processEngineResults scans ↔
      ∃ n r s, (n, r) ∈ scans ∧ r.detected = true ∧ r.result = some s ∧ s ≠ "" ∧
        t = n ++ ": " ++ s := by
  rw [processEngineResults_eq_filterMap, List.mem_filterMap]
  constructor
  · rintro ⟨⟨n, r⟩, hmem, hf⟩
    by_cases hc : r.detected = true ∧ tstr r.result = true
    · rw [if_pos hc] at hf
      match hr : r.result with
      | none => rw [hr] at hc; simp [tstr] at hc
      | some s =>
        refine ⟨n, r, s, hmem, hc.1, hr, ?_, ?_⟩
        · have := hc.2
          rw [hr] at this
          simpa [tstr, bne_iff_ne] using this
        · rw [hr] at hf
          simpa using hf.symm
    · rw [if_neg hc] at hf
      exact absurd hf (by simp)
  · rintro ⟨n, r, s, hmem, hd, hr, hs, ht⟩
    refine ⟨(n, r), hmem, ?_⟩
    have hc : r.detected = true ∧ tstr r.result = true := by
      refine ⟨hd, ?_⟩
      rw [hr]
      simpa [tstr, bne_iff_ne] using hs
    rw [if_pos hc, hr]
    simp [ht]

/-- Claim C9 (corrected): for a completed report, the normalized verdict has
safe true iff the positives count is zero, and its threats list contains the
entry engine-colon-result exactly for the engines that flagged the content
AND supplied a non-empty result label; a flagging engine without a result
label contributes no entry (see the counterexample). -/
theorem mkVerdict_threats_characterization (rep : VTReport) (t : String) :
    ((mkVerdict rep).isSafe = true ↔ rep.positives = 0) ∧
    (mkVerdict rep).threats = processEngineResults rep.scans ∧
    (t ∈ (mkVerdict rep).threats ↔
      ∃ n r s, (n, r) ∈ rep.scans ∧ r.detected = true ∧ r.result = some s ∧ s ≠ "" ∧
        t = n ++ ": " ++ s) := by
  refine ⟨?_, rfl, ?_⟩
  · simp [mkVerdict]
  · exact mem_processEngineResults rep.scans t

/-- Claim C9 counterexample: in c9Report the engine EngineX flagged the
content (detected true, and indeed positives is 1 so the verdict is unsafe),
yet the normalized threats list is empty, because the engine entry carries
no result label. The claim as stated requires an entry for every flagging
engine. -/
theorem mkVerdict_missing_result_label_counterexample :
    (mkVerdict c9Report).isSafe = false ∧
    (∃ er ∈ c9Report.scans, er.2.detected = true) ∧
    (mkVerdict c9Report).threats = [] := by
  refine ⟨rfl, ⟨("EngineX", { detected := true, result := none }), by decide, rfl⟩, rfl⟩

/-! ## Claim C4: daily quota fail-open -/

/-- Claim C4 (confirmed): once the daily counter has reached the 500
ceiling, scanWithVirusTotal (with an API key configured) returns the
fail-open daily-limit verdict: isSafe true with the daily-limit-reached
marker and no threats, making no external call at all and never failing
closed or throwing. -/
theorem scanWithVirusTotal_daily_quota_fail_open (env : AVEnv) (st : AVState) (svc : ScanSvc)
    (buf : List Nat) (fn : String)
    (hq : st.dailyRequestCount ≥ 500) (hk : env.apiKey ≠ "") :
    (scanWithVirusTotal env st svc buf fn).1 = dailyLimitVerdict ∧
    (scanWithVirusTotal env st svc buf fn).1.isSafe = true ∧
    (scanWithVirusTotal env st svc buf fn).1.scanId = "daily-limit-reached" ∧
    (scanWithVirusTotal env st svc buf fn).1.threats = [] ∧
    (scanWithVirusTotal env st svc buf fn).2.2.2 = [] := by
  have h1 : scanWithVirusTotal env st svc buf fn = (dailyLimitVerdict, st, svc, []) := by
    unfold scanWithVirusTotal
    rw [if_neg hk, if_pos hq]
  rw [h1]
  exact ⟨rfl, rfl, rfl, rfl, rfl⟩

/-- Witness for claim C4 at a concrete saturated counter. -/
theorem scanWithVirusTotal_daily_quota_fail_open_witness :
    (scanWithVirusTotal c4Env c4St c4Svc [1] "f").1.isSafe = true ∧
    (scanWithVirusTotal c4Env c4St c4Svc [1] "f").1.scanId = "daily-limit-reached" :=
  ⟨(scanWithVirusTotal_daily_quota_fail_open c4Env c4St c4Svc [1] "f" (by decide)
      (by decide)).2.1,
   (scanWithVirusTotal_daily_quota_fail_open c4Env c4St c4Svc [1] "f" (by decide)
      (by decide)).2.2.1⟩

/-! ## Behaviour lemmas of the scan orchestration -/

/-- rateLimitCheck below the ceiling with no day rollover: bump and go. -/
theorem rateLimitCheck_under (env : AVEnv) (st : AVState)
    (hd : st.dailyRequestCount < 500) (hdate : st.lastResetDate = env.currentDate) :
    rateLimitCheck env st = (bump env st, true) := by
  have h1 : ¬ (st.lastResetDate ≠ env.currentDate) := by simp [hdate]
  have h2 : ¬ st.dailyRequestCount ≥ 500 := by omega
  unfold rateLimitCheck bump
  simp [h1, h2]

/-- bump adds one to the daily counter and keeps the reset date. -/
theorem bump_daily (env : AVEnv) (st : AVState) :
    (bump env st).dailyRequestCount = st.dailyRequestCount + 1 ∧
    (bump env st).lastResetDate = st.lastResetDate := ⟨rfl, rfl⟩

/-- A hash lookup hit: one rateLimitCheck, one lookup call, the cached report. -/
theorem checkHashReport_hit (env : AVEnv) (st : AVState) (svc : ScanSvc) (h : String)
    (rep : VTReport)
    (hd : st.dailyRequestCount < 500) (hdate : st.lastResetDate = env.currentDate)
    (hok : env.lookupHttpOk = true) (hrep : svc.reports h = some rep) :
    checkHashReport env st svc h = (some rep, bump env st, [ScanEv.lookup]) := by
  unfold checkHashReport
  rw [rateLimitCheck_under env st hd hdate]
  simp [hok, hrep]

/-- A hash lookup miss: one rateLimitCheck, one lookup call, nothing found. -/
theorem checkHashReport_miss (env : AVEnv) (st : AVState) (svc : ScanSvc) (h : String)
    (hd : st.dailyRequestCount < 500) (hdate : st.lastResetDate = env.currentDate)
    (hok : env.lookupHttpOk = true) (hrep : svc.reports h = none) :
    checkHashReport env st svc h = (none, bump env st, [ScanEv.lookup]) := by
  unfold checkHashReport
  rw [rateLimitCheck_under env st hd hdate]
  simp [hok, hrep]

/-- checkHashReport only returns a report the service store holds. -/
theorem checkHashReport_some_of (env : AVEnv) (st : AVState) (svc : ScanSvc) (h : String)
    (rep : VTReport) (st1 : AVState) (tr : List ScanEv)
    (hch : checkHashReport env st svc h = (some rep, st1, tr)) :
    svc.reports h = some rep := by
  unfold checkHashReport at hch
  rcases hr : rateLimitCheck env st with ⟨st2, b⟩
  rw [hr] at hch
  cases b with
  | false => simp at hch
  | true =>
    by_cases hok : env.lookupHttpOk = true
    · cases hsv : svc.reports h with
      | some r =>
        simp [hok, hsv] at hch
        rw [hch.1]
      | none => simp [hok, hsv] at hch
    · simp [hok] at hch

/-- A successful nominal upload: bump, the upload call, the scan id. -/
theorem uploadFileForScan_ok (env : AVEnv) (st : AVState) (buf : List Nat) (sid : String)
    (hd : st.dailyRequestCount < 500) (hdate : st.lastResetDate = env.currentDate)
    (hup : env.uploadOutcome = Except.ok sid) (hsize : buf.length ≤ MAX_FILE_SIZE) :
    uploadFileForScan env st buf = (Except.ok sid, bump env st, [ScanEv.upload]) := by
  have hsz : ¬ buf.length > MAX_FILE_SIZE := by omega
  unfold uploadFileForScan
  rw [rateLimitCheck_under env st hd hdate]
  simp [hsz, hup]

/-- When the submission POST fails, uploadFileForScan always reports a thrown
error, whatever the quota and size guards did first. -/
theorem uploadFileForScan_err (env : AVEnv) (st : AVState) (buf : List Nat) (e : String)
    (hup : env.uploadOutcome = Except.error e) :
    ∃ msg st2 tr, uploadFileForScan env st buf = (Except.error msg, st2, tr) := by
  unfold uploadFileForScan
  rcases hr : rateLimitCheck env st with ⟨st1, b⟩
  cases b with
  | false =>
    exact ⟨"Error al subir archivo para escaneo: limite diario de escaneo alcanzado",
      st1, [], rfl⟩
  | true =>
    by_cases hs : buf.length > MAX_FILE_SIZE
    · exact ⟨"Error al subir archivo para escaneo: archivo demasiado grande", st1, [],
        by simp [hs]⟩
    · exact ⟨"Error al subir archivo para escaneo: " ++ e, st1, [ScanEv.upload],
        by simp [hs, hup]⟩

/-- A poll that completes on the first attempt. -/
theorem getScanReportLoop_completed (env : AVEnv) (h : String) (st : AVState) (fuel : Nat)
    (hd : st.dailyRequestCount < 500) (hdate : st.lastResetDate = env.currentDate)
    (hpoll : env.pollRes 0 = PollOut.completed) :
    getScanReportLoop env h st 0 (fuel + 1) =
      (Except.ok (env.reportFor h), bump env st, [ScanEv.poll]) := by
  unfold getScanReportLoop
  rw [if_neg (by omega)]
  rw [rateLimitCheck_under env st hd hdate]
  rw [hpoll]

/-- Whatever the polling schedule did, an ok result of the loop is the report
the service holds for the scanned content. -/
theorem getScanReportLoop_ok_report (env : AVEnv) (h : String) :
    ∀ fuel st retries rep st2 tr,
      getScanReportLoop env h st retries fuel = (Except.ok rep, st2, tr) →
      rep = env.reportFor h := by
  intro fuel
  induction fuel with
  | zero => intro st retries rep st2 tr hloop; simp [getScanReportLoop] at hloop
  | succ n ih =>
    intro st retries rep st2 tr hloop
    unfold getScanReportLoop at hloop
    by_cases h10 : retries ≥ 10
    · rw [if_pos h10] at hloop; simp at hloop
    · rw [if_neg h10] at hloop
      rcases hr : rateLimitCheck env st with ⟨st1, b⟩
      rw [hr] at hloop
      cases b with
      | false =>
        by_cases h9 : retries ≥ 9
        · simp [h9] at hloop
        · simp only [Bool.false_eq_true, if_neg h9] at hloop
          exact ih st1 (retries + 1) rep st2 tr hloop
      | true =>
        cases hp : env.pollRes retries with
        | completed =>
          simp [hp] at hloop
          exact hloop.1.symm
        | inProgress =>
          by_cases h10b : retries + 1 ≥ 10
          · simp [hp, h10b] at hloop
          · simp only [hp, if_neg h10b] at hloop
            rcases hrec : getScanReportLoop env h st1 (retries + 1) n with ⟨r2, st3, tr3⟩
            rw [hrec] at hloop
            cases r2 with
            | error e => simp at hloop
            | ok rep2 =>
              simp at hloop
              rw [← hloop.1]
              exact ih st1 (retries + 1) rep2 st3 tr3 hrec
        | httpErr =>
          by_cases h9 : retries ≥ 9
          · simp [hp, h9] at hloop
          · simp only [hp, if_neg h9] at hloop
            rcases hrec : getScanReportLoop env h st1 (retries + 1) n with ⟨r2, st3, tr3⟩
            rw [hrec] at hloop
            cases r2 with
            | error e => simp at hloop
            | ok rep2 =>
              simp at hloop
              rw [← hloop.1]
              exact ih st1 (retries + 1) rep2 st3 tr3 hrec

/-- A scan run that hits the hash cache: verdict from the cached report, one
counter bump, the service store untouched, and no upload call at all. -/
theorem scan_cache_hit (env : AVEnv) (st : AVState) (svc : ScanSvc)
    (buf : List Nat) (fn : String) (rep : VTReport)
    (hk : env.apiKey ≠ "") (hd : st.dailyRequestCount < 500)
    (hdate : st.lastResetDate = env.currentDate) (hok : env.lookupHttpOk = true)
    (hrep : svc.reports (env.hashHex buf) = some rep) :
    scanWithVirusTotal env st svc buf fn = (mkVerdict rep, bump env st, svc, [ScanEv.lookup]) := by
  unfold scanWithVirusTotal
  rw [if_neg hk, if_neg (by omega)]
  rw [checkHashReport_hit env st svc (env.hashHex buf) rep hd hdate hok hrep]

/-- A scan run that misses the cache under a nominal service: one lookup, one
upload, one poll; the verdict is built from the completed report and the
service store now holds that report under the content hash and scan id. -/
theorem scan_cache_miss_nominal (env : AVEnv) (st : AVState) (svc : ScanSvc)
    (buf : List Nat) (fn : String) (sid : String)
    (hk : env.apiKey ≠ "") (hd : st.dailyRequestCount + 2 < 500)
    (hdate : st.lastResetDate = env.currentDate) (hok : env.lookupHttpOk = true)
    (hmiss : svc.reports (env.hashHex buf) = none)
    (hup : env.uploadOutcome = Except.ok sid) (hsize : buf.length ≤ MAX_FILE_SIZE)
    (hpoll : env.pollRes 0 = PollOut.completed) :
    scanWithVirusTotal env st svc buf fn =
      (mkVerdict (env.reportFor (env.hashHex buf)),
       bump env (bump env (bump env st)),
       registerReport svc (env.hashHex buf) (env.reportFor (env.hashHex buf)),
       [ScanEv.lookup, ScanEv.upload, ScanEv.poll]) := by
  unfold scanWithVirusTotal
  rw [if_neg hk, if_neg (by omega)]
  rw [checkHashReport_miss env st svc (env.hashHex buf) (by omega) hdate hok hmiss]
  simp only [uploadFileForScan_ok env (bump env st) buf sid (by simp [bump]; omega)
    (by simp [bump, hdate]) hup hsize]
  rw [(by norm_num : (20 : Nat) = 19 + 1)]
  rw [getScanReportLoop_completed env (env.hashHex buf) (bump env (bump env st)) 19
    (by simp [bump]; omega) (by simp [bump, hdate]) hpoll]
  rfl

/-- Claim C5 (confirmed): under a nominal service, two scans of byte
identical buffers issue at most one upload: the first run either hits the
hash cache or registers its completed report under the content hash, and the
second run finds that report in the lookup step and returns the cached
verdict with no upload call. -/
theorem scanWithVirusTotal_content_dedup (env : AVEnv) (st : AVState) (svc : ScanSvc)
    (buf : List Nat) (f1 f2 : String) (sid : String)
    (hk : env.apiKey ≠ "") (hd : st.dailyRequestCount + 4 < 500)
    (hdate : st.lastResetDate = env.currentDate) (hok : env.lookupHttpOk = true)
    (hup : env.uploadOutcome = Except.ok sid) (hsize : buf.length ≤ MAX_FILE_SIZE)
    (hpoll : env.pollRes 0 = PollOut.completed) :
    ((scanWithVirusTotal env st svc buf f1).2.2.2 ++
      (scanWithVirusTotal env (scanWithVirusTotal env st svc buf f1).2.1
        (scanWithVirusTotal env st svc buf f1).2.2.1 buf f2).2.2.2).count ScanEv.upload ≤ 1 ∧
    (scanWithVirusTotal env (scanWithVirusTotal env st svc buf f1).2.1
      (scanWithVirusTotal env st svc buf f1).2.2.1 buf f2).2.2.2.count ScanEv.upload = 0 ∧
    ∃ rep, (scanWithVirusTotal env st svc buf f1).2.2.1.reports (env.hashHex buf) = some rep ∧
      (scanWithVirusTotal env (scanWithVirusTotal env st svc buf f1).2.1
        (scanWithVirusTotal env st svc buf f1).2.2.1 buf f2).1 = mkVerdict rep := by
  cases hcache : svc.reports (env.hashHex buf) with
  | some rep =>
    have h1 := scan_cache_hit env st svc buf f1 rep hk (by omega) hdate hok hcache
    have hb1 : (scanWithVirusTotal env st svc buf f1).2.1 = bump env st := by rw [h1]
    have hb2 : (scanWithVirusTotal env st svc buf f1).2.2.1 = svc := by rw [h1]
    have htr1 : (scanWithVirusTotal env st svc buf f1).2.2.2 = [ScanEv.lookup] := by rw [h1]
    have h2 := scan_cache_hit env (bump env st) svc buf f2 rep hk
      (by simp [bump]; omega) (by simp [bump, hdate]) hok hcache
    rw [hb1, hb2]
    have htr2 : (scanWithVirusTotal env (bump env st) svc buf f2).2.2.2 =
        [ScanEv.lookup] := by rw [h2]
    have hv2 : (scanWithVirusTotal env (bump env st) svc buf f2).1 = mkVerdict rep := by
      rw [h2]
    rw [htr1, htr2, hv2]
    exact ⟨by decide, by decide, rep, hcache, rfl⟩
  | none =>
    have h1 := scan_cache_miss_nominal env st svc buf f1 sid hk (by omega) hdate hok
      hcache hup hsize hpoll
    have hb1 : (scanWithVirusTotal env st svc buf f1).2.1 =
        bump env (bump env (bump env st)) := by rw [h1]
    have hb2 : (scanWithVirusTotal env st svc buf f1).2.2.1 =
        registerReport svc (env.hashHex buf) (env.reportFor (env.hashHex buf)) := by rw [h1]
    have htr1 : (scanWithVirusTotal env st svc buf f1).2.2.2 =
        [ScanEv.lookup, ScanEv.upload, ScanEv.poll] := by rw [h1]
    have hsvc1 : (registerReport svc (env.hashHex buf)
        (env.reportFor (env.hashHex buf))).reports (env.hashHex buf) =
        some (env.reportFor (env.hashHex buf)) := by simp [registerReport]
    have h2 := scan_cache_hit env (bump env (bump env (bump env st)))
      (registerReport svc (env.hashHex buf) (env.reportFor (env.hashHex buf)))
      buf f2 (env.reportFor (env.hashHex buf)) hk
      (by simp [bump]; omega) (by simp [bump, hdate]) hok hsvc1
    rw [hb1, hb2]
    have htr2 : (scanWithVirusTotal env (bump env (bump env (bump env st)))
        (registerReport svc (env.hashHex buf) (env.reportFor (env.hashHex buf))) buf f2).2.2.2 =
        [ScanEv.lookup] := by rw [h2]
    have hv2 : (scanWithVirusTotal env (bump env (bump env (bump env st)))
        (registerReport svc (env.hashHex buf) (env.reportFor (env.hashHex buf))) buf f2).1 =
        mkVerdict (env.reportFor (env.hashHex buf)) := by rw [h2]
    rw [htr1, htr2, hv2]
    exact ⟨by decide, by decide, env.reportFor (env.hashHex buf), hsvc1, rfl⟩

/-- Branch equality: a cache hit returns the cached verdict. -/
theorem scan_eq_hit (env : AVEnv) (st : AVState) (svc : ScanSvc) (buf : List Nat)
    (fn : String) (rep : VTReport) (st1 : AVState) (tr1 : List ScanEv)
    (hk : env.apiKey ≠ "") (hq : ¬ st.dailyRequestCount ≥ 500)
    (hch : checkHashReport env st svc (env.hashHex buf) = (some rep, st1, tr1)) :
    scanWithVirusTotal env st svc buf fn = (mkVerdict rep, st1, svc, tr1) := by
  unfold scanWithVirusTotal
  rw [if_neg hk, if_neg hq, hch]

/-- Branch equality: an upload error yields the fail-open error verdict. -/
theorem scan_eq_upload_err (env : AVEnv) (st : AVState) (svc : ScanSvc) (buf : List Nat)
    (fn : String) (st1 : AVState) (tr1 : List ScanEv) (e : String) (st2 : AVState)
    (tr2 : List ScanEv)
    (hk : env.apiKey ≠ "") (hq : ¬ st.dailyRequestCount ≥ 500)
    (hch : checkHashReport env st svc (env.hashHex buf) = (none, st1, tr1))
    (hup2 : uploadFileForScan env st1 buf = (Except.error e, st2, tr2)) :
    scanWithVirusTotal env st svc buf fn = (errVerdict e, st2, svc, tr1 ++ tr2) := by
  unfold scanWithVirusTotal
  rw [if_neg hk, if_neg hq, hch]
  simp only [hup2]

/-- Branch equality: a polling failure yields the fail-open error verdict. -/
theorem scan_eq_poll_err (env : AVEnv) (st : AVState) (svc : ScanSvc) (buf : List Nat)
    (fn : String) (st1 : AVState) (tr1 : List ScanEv) (sid : String) (st2 : AVState)
    (tr2 : List ScanEv) (e2 : String) (st3 : AVState) (tr3 : List ScanEv)
    (hk : env.apiKey ≠ "") (hq : ¬ st.dailyRequestCount ≥ 500)
    (hch : checkHashReport env st svc (env.hashHex buf) = (none, st1, tr1))
    (hup2 : uploadFileForScan env st1 buf = (Except.ok sid, st2, tr2))
    (hloop : getScanReportLoop env (env.hashHex buf) st2 0 20 = (Except.error e2, st3, tr3)) :
    scanWithVirusTotal env st svc buf fn = (errVerdict e2, st3, svc, tr1 ++ tr2 ++ tr3) := by
  unfold scanWithVirusTotal
  rw [if_neg hk, if_neg hq, hch]
  simp only [hup2, hloop]

/-- Branch equality: a completed poll yields the report verdict and stores
the report. -/
theorem scan_eq_poll_ok (env : AVEnv) (st : AVState) (svc : ScanSvc) (buf : List Nat)
    (fn : String) (st1 : AVState) (tr1 : List ScanEv) (sid : String) (st2 : AVState)
    (tr2 : List ScanEv) (rep : VTReport) (st3 : AVState) (tr3 : List ScanEv)
    (hk : env.apiKey ≠ "") (hq : ¬ st.dailyRequestCount ≥ 500)
    (hch : checkHashReport env st svc (env.hashHex buf) = (none, st1, tr1))
    (hup2 : uploadFileForScan env st1 buf = (Except.ok sid, st2, tr2))
    (hloop : getScanReportLoop env (env.hashHex buf) st2 0 20 = (Except.ok rep, st3, tr3)) :
    scanWithVirusTotal env st svc buf fn =
      (mkVerdict rep, st3, registerReport svc (env.hashHex buf) rep, tr1 ++ tr2 ++ tr3) := by
  unfold scanWithVirusTotal
  rw [if_neg hk, if_neg hq, hch]
  simp only [hup2, hloop]

/-- Witness for claim C5 at a concrete pair of identical buffers. -/
theorem scanWithVirusTotal_content_dedup_witness :
    ((scanWithVirusTotal c5Env c5St c4Svc [1, 2] "a").2.2.2 ++
      (scanWithVirusTotal c5Env (scanWithVirusTotal c5Env c5St c4Svc [1, 2] "a").2.1
        (scanWithVirusTotal c5Env c5St c4Svc [1, 2] "a").2.2.1 [1, 2] "b").2.2.2).count
          ScanEv.upload ≤ 1 ∧
    (scanWithVirusTotal c5Env (scanWithVirusTotal c5Env c5St c4Svc [1, 2] "a").2.1
      (scanWithVirusTotal c5Env c5St c4Svc [1, 2] "a").2.2.1 [1, 2] "b").2.2.2.count
        ScanEv.upload = 0 ∧
    ∃ rep, (scanWithVirusTotal c5Env c5St c4Svc [1, 2] "a").2.2.1.reports
        (c5Env.hashHex [1, 2]) = some rep ∧
      (scanWithVirusTotal c5Env (scanWithVirusTotal c5Env c5St c4Svc [1, 2] "a").2.1
        (scanWithVirusTotal c5Env c5St c4Svc [1, 2] "a").2.2.1 [1, 2] "b").1 = mkVerdict rep :=
  scanWithVirusTotal_content_dedup c5Env c5St c4Svc [1, 2] "a" "b" "sid5"
    (by decide) (by decide) (by decide) (by decide) rfl (by decide) rfl

/-- Claim C10 (confirmed): scanWithVirusTotal is total and fail-open
everywhere: an unsafe verdict arises only from a completed report with a
non-zero positives count (cached for the content hash or produced by the
finished scan of this content); a missing API key short-circuits to the
isSafe-true no-api-key verdict with no scanning at all; and when the lookup
finds nothing and the submission POST fails, the run ends in the isSafe-true
verdict with the error marker instead of throwing. -/
theorem scanWithVirusTotal_fail_open_design (env : AVEnv) (st : AVState) (svc : ScanSvc)
    (buf : List Nat) (fn : String) :
    ((scanWithVirusTotal env st svc buf fn).1.isSafe = false →
      ∃ rep, rep.positives ≠ 0 ∧
        (scanWithVirusTotal env st svc buf fn).1 = mkVerdict rep ∧
        (svc.reports (env.hashHex buf) = some rep ∨ rep = env.reportFor (env.hashHex buf))) ∧
    (env.apiKey = "" → (scanWithVirusTotal env st svc buf fn).1 = noApiKeyVerdict) ∧
    (∀ e, env.uploadOutcome = Except.error e → env.apiKey ≠ "" →
      ¬ st.dailyRequestCount ≥ 500 →
      (checkHashReport env st svc (env.hashHex buf)).1 = none →
      (scanWithVirusTotal env st svc buf fn).1.isSafe = true ∧
      (scanWithVirusTotal env st svc buf fn).1.scanId = "error") := by
  refine ⟨?_, ?_, ?_⟩
  · intro hsafe
    by_cases hk : env.apiKey = ""
    · have he : (scanWithVirusTotal env st svc buf fn).1 = noApiKeyVerdict := by
        unfold scanWithVirusTotal
        rw [if_pos hk]
      rw [he] at hsafe
      simp [noApiKeyVerdict] at hsafe
    · by_cases hq : st.dailyRequestCount ≥ 500
      · have he : (scanWithVirusTotal env st svc buf fn).1 = dailyLimitVerdict := by
          unfold scanWithVirusTotal
          rw [if_neg hk, if_pos hq]
        rw [he] at hsafe
        simp [dailyLimitVerdict] at hsafe
      · rcases hch : checkHashReport env st svc (env.hashHex buf) with ⟨och, st1, tr1⟩
        cases och with
        | some rep =>
          have he := scan_eq_hit env st svc buf fn rep st1 tr1 hk hq hch
          have hp : rep.positives ≠ 0 := by
            rw [he] at hsafe
            simpa [mkVerdict] using hsafe
          exact ⟨rep, hp, by rw [he],
            Or.inl (checkHashReport_some_of env st svc (env.hashHex buf) rep st1 tr1 hch)⟩
        | none =>
          rcases hup2 : uploadFileForScan env st1 buf with ⟨upres, st2, tr2⟩
          cases upres with
          | error e =>
            have he := scan_eq_upload_err env st svc buf fn st1 tr1 e st2 tr2 hk hq hch hup2
            rw [he] at hsafe
            simp [errVerdict] at hsafe
          | ok sid =>
            rcases hloop : getScanReportLoop env (env.hashHex buf) st2 0 20 with ⟨lres, st3, tr3⟩
            cases lres with
            | error e2 =>
              have he := scan_eq_poll_err env st svc buf fn st1 tr1 sid st2 tr2 e2 st3 tr3
                hk hq hch hup2 hloop
              rw [he] at hsafe
              simp [errVerdict] at hsafe
            | ok rep =>
              have he := scan_eq_poll_ok env st svc buf fn st1 tr1 sid st2 tr2 rep st3 tr3
                hk hq hch hup2 hloop
              have hrep := getScanReportLoop_ok_report env (env.hashHex buf) 20 st2 0 rep
                st3 tr3 hloop
              have hp : rep.positives ≠ 0 := by
                rw [he] at hsafe
                simpa [mkVerdict] using hsafe
              exact ⟨rep, hp, by rw [he], Or.inr hrep⟩
  · intro hk
    unfold scanWithVirusTotal
    rw [if_pos hk]
  · intro e hupe hk hq hchn
    rcases hch : checkHashReport env st svc (env.hashHex buf) with ⟨och, st1, tr1⟩
    rw [hch] at hchn
    simp at hchn
    cases och with
    | some r => simp at hchn
    | none =>
      rcases uploadFileForScan_err env st1 buf e hupe with ⟨msg, st2, tr2, hup2⟩
      have he := scan_eq_upload_err env st svc buf fn st1 tr1 msg st2 tr2 hk hq hch hup2
      rw [he]
      exact ⟨rfl, rfl⟩

/-- Witness for claim C10: a fresh run against a service whose completed
report flags one engine produces an unsafe verdict explained by that report,
and the keyless environment short-circuits fail-open. -/
theorem scanWithVirusTotal_fail_open_design_witness :
    (∃ rep, rep.positives ≠ 0 ∧
      (scanWithVirusTotal c10Env c10St c4Svc [1] "f").1 = mkVerdict rep ∧
      (c4Svc.reports (c10Env.hashHex [1]) = some rep ∨
        rep = c10Env.reportFor (c10Env.hashHex [1]))) ∧
    (scanWithVirusTotal c10EnvNoKey c10St c4Svc [1] "f").1 = noApiKeyVerdict :=
  ⟨(scanWithVirusTotal_fail_open_design c10Env c10St c4Svc [1] "f").1 (by decide),
   (scanWithVirusTotal_fail_open_design c10EnvNoKey c10St c4Svc [1] "f").2.1 rfl⟩

/-! ## Frame lemmas for the publishProject stages -/

/-- The icon block does not touch status, publish time, files, images or id. -/
theorem publishIcon_frame (env : StoreEnv) (p : Project) (store : List String) :
    (publishIcon env p store).1.status = p.status ∧
    (publishIcon env p store).1.publishedAt = p.publishedAt ∧
    (publishIcon env p store).1.files = p.files ∧
    (publishIcon env p store).1.imagePublicIds = p.imagePublicIds ∧
    (publishIcon env p store).1.id = p.id := by
  unfold publishIcon tryMove
  repeat' split
  all_goals exact ⟨rfl, rfl, rfl, rfl, rfl⟩

/-- The images block does not touch status, publish time, files, icon or id. -/
theorem publishImages_frame (env : StoreEnv) (p : Project) (store : List String) (fm : Bool) :
    (publishImages env p store fm).1.status = p.status ∧
    (publishImages env p store fm).1.publishedAt = p.publishedAt ∧
    (publishImages env p store fm).1.files = p.files ∧
    (publishImages env p store fm).1.iconPublicId = p.iconPublicId ∧
    (publishImages env p store fm).1.id = p.id := by
  unfold publishImages
  repeat' split
  all_goals exact ⟨rfl, rfl, rfl, rfl, rfl⟩

/-- The code block does not touch status, publish time, icon, images, id, or
the app and doc file entries. -/
theorem publishCode_frame (env : StoreEnv) (p : Project) (store : List String) (fm : Bool) :
    (publishCode env p store fm).1.status = p.status ∧
    (publishCode env p store fm).1.publishedAt = p.publishedAt ∧
    (publishCode env p store fm).1.iconPublicId = p.iconPublicId ∧
    (publishCode env p store fm).1.files.docPdf = p.files.docPdf ∧
    (publishCode env p store fm).1.id = p.id := by
  unfold publishCode tryMove
  repeat' split
  all_goals exact ⟨rfl, rfl, rfl, rfl, rfl⟩

/-- The doc block does not touch status, publish time, icon, id, or the code
file entry. -/
theorem publishDoc_frame (env : StoreEnv) (p : Project) (store : List String) (fm : Bool) :
    (publishDoc env p store fm).1.status = p.status ∧
    (publishDoc env p store fm).1.publishedAt = p.publishedAt ∧
    (publishDoc env p store fm).1.iconPublicId = p.iconPublicId ∧
    (publishDoc env p store fm).1.files.code = p.files.code ∧
    (publishDoc env p store fm).1.id = p.id := by
  unfold publishDoc tryMove
  repeat' split
  all_goals exact ⟨rfl, rfl, rfl, rfl, rfl⟩

/-- A failed icon move is swallowed: the project and storage are unchanged. -/
theorem publishIcon_fail (env : StoreEnv) (p : Project) (store : List String) (ic : String)
    (hic : p.iconPublicId = some ic) (ht : strIncludes ic "/temp/" = true)
    (hm : env.moveOk ic = false) :
    publishIcon env p store = (p, store, false) := by
  unfold publishIcon tryMove
  rw [hic]
  dsimp only
  rw [if_pos ht, if_neg (by simp [hm])]

/-- With no doc entry the doc block is the identity. -/
theorem publishDoc_noDoc (env : StoreEnv) (p : Project) (store : List String) (fm : Bool)
    (hd : p.files.docPdf = none) :
    publishDoc env p store fm = (p, store, fm) := by
  unfold publishDoc
  rw [hd]

/-- A successful code move re-homes the archive: the code entry gets the
moved public id and storage swaps the old id for the new one. -/
theorem publishCode_moveOk (env : StoreEnv) (p : Project) (store : List String) (fm : Bool)
    (c : StoredFile)
    (hc : p.files.code = some c) (ht : strIncludes c.publicId "/temp/" = true)
    (hm : env.moveOk c.publicId = true) :
    ∃ c2, publishCode env p store fm =
        ({ p with files := { p.files with code := some c2 } },
         movedId c.publicId (projFolder p.id "code") :: store.erase c.publicId, true) ∧
      c2.publicId = movedId c.publicId (projFolder p.id "code") := by
  unfold publishCode tryMove
  rw [hc]
  dsimp only
  rw [if_pos ht, if_pos hm]
  dsimp only
  cases hi : env.info (movedId c.publicId (projFolder p.id "code")) with
  | none =>
    refine ⟨{ c with publicId := movedId c.publicId (projFolder p.id "code") }, ?_, rfl⟩
    simp [hi]
  | some u =>
    refine ⟨{ c with publicId := movedId c.publicId (projFolder p.id "code"), url := u },
      ?_, rfl⟩
    simp [hi]

/-- A successful icon move re-homes the icon: the project records the moved
public id and storage swaps the old id for the new one. -/
theorem publishIcon_moveOk (env : StoreEnv) (p : Project) (store : List String)
    (ic : String) (hic : p.iconPublicId = some ic)
    (ht : strIncludes ic "/temp/" = true) (hm : env.moveOk ic = true) :
    (publishIcon env p store).1.iconPublicId =
      some (movedId ic (projFolder p.id "icons")) ∧
    (publishIcon env p store).2.1 =
      movedId ic (projFolder p.id "icons") :: store.erase ic := by
  unfold publishIcon tryMove
  rw [hic]
  dsimp only
  rw [if_pos ht, if_pos hm]
  dsimp only
  cases hi : env.info (movedId ic (projFolder p.id "icons")) with
  | none => exact ⟨rfl, rfl⟩
  | some u => exact ⟨rfl, rfl⟩

/-- A failed code move is swallowed: the project and storage are unchanged. -/
theorem publishCode_fail (env : StoreEnv) (p : Project) (store : List String) (fm : Bool)
    (c : StoredFile) (hc : p.files.code = some c)
    (ht : strIncludes c.publicId "/temp/" = true) (hm : env.moveOk c.publicId = false) :
    publishCode env p store fm = (p, store, fm) := by
  unfold publishCode tryMove
  rw [hc]
  dsimp only
  rw [if_pos ht, if_neg (by simp [hm])]

/-- A failed doc move is swallowed: the project and storage are unchanged. -/
theorem publishDoc_fail (env : StoreEnv) (p : Project) (store : List String) (fm : Bool)
    (c : StoredFile) (hc : p.files.docPdf = some c)
    (ht : strIncludes c.publicId "/temp/" = true) (hm : env.moveOk c.publicId = false) :
    publishDoc env p store fm = (p, store, fm) := by
  unfold publishDoc tryMove
  rw [hc]
  dsimp only
  rw [if_pos ht, if_neg (by simp [hm])]

/-- A successful doc move re-homes the pdf: the doc entry gets the moved
public id and storage swaps the old id for the new one. -/
theorem publishDoc_moveOk (env : StoreEnv) (p : Project) (store : List String) (fm : Bool)
    (c : StoredFile)
    (hc : p.files.docPdf = some c) (ht : strIncludes c.publicId "/temp/" = true)
    (hm : env.moveOk c.publicId = true) :
    ∃ c2, publishDoc env p store fm =
        ({ p with files := { p.files with docPdf := some c2 } },
         movedId c.publicId (projFolder p.id "docs") :: store.erase c.publicId, true) ∧
      c2.publicId = movedId c.publicId (projFolder p.id "docs") := by
  unfold publishDoc tryMove
  rw [hc]
  dsimp only
  rw [if_pos ht, if_pos hm]
  dsimp only
  cases hi : env.info (movedId c.publicId (projFolder p.id "docs")) with
  | none =>
    refine ⟨{ c with publicId := movedId c.publicId (projFolder p.id "docs") }, ?_, rfl⟩
    simp [hi]
  | some u =>
    refine ⟨{ c with publicId := movedId c.publicId (projFolder p.id "docs"), url := u },
      ?_, rfl⟩
    simp [hi]

/-- The code block does not touch the image id list. -/
theorem publishCode_frame_images (env : StoreEnv) (p : Project) (store : List String)
    (fm : Bool) :
    (publishCode env p store fm).1.imagePublicIds = p.imagePublicIds := by
  unfold publishCode tryMove
  repeat' split
  all_goals rfl

/-- The doc block does not touch the image id list. -/
theorem publishDoc_frame_images (env : StoreEnv) (p : Project) (store : List String)
    (fm : Bool) :
    (publishDoc env p store fm).1.imagePublicIds = p.imagePublicIds := by
  unfold publishDoc tryMove
  repeat' split
  all_goals rfl

/-- A stored id that is not a staging id survives a moveCloudinaryFiles call
on a staging source: only the staged source is erased. -/
theorem tryMove_store_mem (env : StoreEnv) (store : List String) (src folder x : String)
    (hx : x ∈ store) (hxt : strIncludes x "/temp/" = false)
    (hst : strIncludes src "/temp/" = true) :
    x ∈ (tryMove env store src folder).2 := by
  unfold tryMove
  split
  next hmo =>
    dsimp only
    have hne : x ≠ src := by
      intro he
      subst he
      rw [hst] at hxt
      exact Bool.noConfusion hxt
    exact List.mem_cons_of_mem _ ((List.mem_erase_of_ne hne).mpr hx)
  next hmo =>
    exact hx

/-- A stored non-staging id survives the code block. -/
theorem publishCode_store_mem (env : StoreEnv) (p : Project) (store : List String)
    (fm : Bool) (x : String) (hx : x ∈ store)
    (hxt : strIncludes x "/temp/" = false) :
    x ∈ (publishCode env p store fm).2.1 := by
  unfold publishCode
  cases hc : p.files.code with
  | none => exact hx
  | some c =>
    dsimp only
    by_cases ht : strIncludes c.publicId "/temp/" = true
    · rw [if_pos ht]
      have hmem := tryMove_store_mem env store c.publicId (projFolder p.id "code") x hx hxt ht
      rcases hmv : tryMove env store c.publicId (projFolder p.id "code") with ⟨r, st1⟩
      rw [hmv] at hmem
      cases r with
      | some newId => exact hmem
      | none => exact hmem
    · rw [if_neg ht]
      exact hx

/-- A stored non-staging id survives the doc block. -/
theorem publishDoc_store_mem (env : StoreEnv) (p : Project) (store : List String)
    (fm : Bool) (x : String) (hx : x ∈ store)
    (hxt : strIncludes x "/temp/" = false) :
    x ∈ (publishDoc env p store fm).2.1 := by
  unfold publishDoc
  cases hc : p.files.docPdf with
  | none => exact hx
  | some c =>
    dsimp only
    by_cases ht : strIncludes c.publicId "/temp/" = true
    · rw [if_pos ht]
      have hmem := tryMove_store_mem env store c.publicId (projFolder p.id "docs") x hx hxt ht
      rcases hmv : tryMove env store c.publicId (projFolder p.id "docs") with ⟨r, st1⟩
      rw [hmv] at hmem
      cases r with
      | some newId => exact hmem
      | none => exact hmem
    · rw [if_neg ht]
      exact hx

/-- A stored non-staging id survives the whole images loop. -/
theorem pubImgs_foldl_store_mem (env : StoreEnv) (p : Project) (imgs : List String)
    (x : String) (hxt : strIncludes x "/temp/" = false) :
    ∀ acc : List String × List String × Bool × List String, x ∈ acc.2.2.2 →
      x ∈ (imgs.foldl (pubImgStep env p) acc).2.2.2 := by
  induction imgs with
  | nil => intro acc hx; simpa using hx
  | cons a t ih =>
    intro acc hx
    rw [List.foldl_cons]
    apply ih
    rcases acc with ⟨mi, mu, fm, st⟩
    have hx' : x ∈ st := hx
    unfold pubImgStep
    dsimp only
    by_cases hin : strIncludes a "/temp/" = true
    · rw [if_pos hin]
      have hmem := tryMove_store_mem env st a (projFolder p.id "images") x hx' hxt hin
      rcases hmv : tryMove env st a (projFolder p.id "images") with ⟨r, st1⟩
      rw [hmv] at hmem
      cases r with
      | some newId => exact hmem
      | none => exact hmem
    · rw [if_neg hin]
      exact hx'

/-- Closed form of the id list the images loop rebuilds: each staged image
whose move succeeds is replaced by its moved id, every other image is kept. -/
theorem pubImgs_foldl_ids (env : StoreEnv) (p : Project) (imgs : List String) :
    ∀ acc : List String × List String × Bool × List String,
      (imgs.foldl (pubImgStep env p) acc).1 =
        acc.1 ++ imgs.map (fun i =>
          if strIncludes i "/temp/" = true ∧ env.moveOk i = true then
            movedId i (projFolder p.id "images")
          else i) := by
  induction imgs with
  | nil => intro acc; simp
  | cons a t ih =>
    intro acc
    rw [List.foldl_cons, List.map_cons, ih]
    rcases acc with ⟨mi, mu, fm, st⟩
    have hstep : (pubImgStep env p (mi, mu, fm, st) a).1 =
        mi ++ [if strIncludes a "/temp/" = true ∧ env.moveOk a = true then
          movedId a (projFolder p.id "images") else a] := by
      unfold pubImgStep tryMove
      dsimp only
      by_cases hin : strIncludes a "/temp/" = true
      · rw [if_pos hin]
        by_cases hmo : env.moveOk a = true
        · rw [if_pos hmo]
          dsimp only
          rw [if_pos ⟨hin, hmo⟩]
        · rw [if_neg hmo]
          dsimp only
          rw [if_neg (fun hc => hmo hc.2)]
      · rw [if_neg hin]
        dsimp only
        rw [if_neg (fun hc => hin hc.1)]
    rw [hstep]
    simp

/-- The filesMoved flag of the images loop never resets. -/
theorem pubImgs_foldl_flag_mono (env : StoreEnv) (p : Project) (imgs : List String) :
    ∀ acc : List String × List String × Bool × List String, acc.2.2.1 = true →
      (imgs.foldl (pubImgStep env p) acc).2.2.1 = true := by
  induction imgs with
  | nil => intro acc h; simpa using h
  | cons a t ih =>
    intro acc h
    rw [List.foldl_cons]
    apply ih
    rcases acc with ⟨mi, mu, fm, st⟩
    have h' : fm = true := h
    subst h'
    unfold pubImgStep
    dsimp only
    by_cases hin : strIncludes a "/temp/" = true
    · rw [if_pos hin]
      rcases hmv : tryMove env st a (projFolder p.id "images") with ⟨r, st1⟩
      cases r with
      | some newId => rfl
      | none => rfl
    · rw [if_neg hin]

/-- A staged image whose move succeeds sets the filesMoved flag. -/
theorem pubImgs_foldl_flag_of_moved (env : StoreEnv) (p : Project) (imgs : List String)
    (i : String) (hst : strIncludes i "/temp/" = true) (hok : env.moveOk i = true) :
    ∀ acc : List String × List String × Bool × List String, i ∈ imgs →
      (imgs.foldl (pubImgStep env p) acc).2.2.1 = true := by
  induction imgs with
  | nil => intro acc h; exact absurd h (List.not_mem_nil i)
  | cons a t ih =>
    intro acc hmem
    rw [List.foldl_cons]
    rcases List.mem_cons.mp hmem with he | ht2
    · subst he
      apply pubImgs_foldl_flag_mono
      rcases acc with ⟨mi, mu, fm, st⟩
      unfold pubImgStep tryMove
      dsimp only
      rw [if_pos hst, if_pos hok]
    · exact ih _ ht2

/-- The moved id of a staged image whose move succeeds is in the loop's final
storage, provided the moved id is itself no staging id. -/
theorem pubImgs_foldl_store_of_moved (env : StoreEnv) (p : Project) (imgs : List String)
    (i : String) (hst : strIncludes i "/temp/" = true) (hok : env.moveOk i = true)
    (hnt : strIncludes (movedId i (projFolder p.id "images")) "/temp/" = false) :
    ∀ acc : List String × List String × Bool × List String, i ∈ imgs →
      movedId i (projFolder p.id "images") ∈ (imgs.foldl (pubImgStep env p) acc).2.2.2 := by
  induction imgs with
  | nil => intro acc h; exact absurd h (List.not_mem_nil i)
  | cons a t ih =>
    intro acc hmem
    rw [List.foldl_cons]
    rcases List.mem_cons.mp hmem with he | ht2
    · subst he
      apply pubImgs_foldl_store_mem env p t _ hnt
      rcases acc with ⟨mi, mu, fm, st⟩
      unfold pubImgStep tryMove
      dsimp only
      rw [if_pos hst, if_pos hok]
      dsimp only
      exact List.mem_cons_self _ _
    · exact ih _ ht2

/-- A stored non-staging id survives the images block. -/
theorem publishImages_store_mem (env : StoreEnv) (p : Project) (store : List String)
    (fm : Bool) (x : String) (hx : x ∈ store)
    (hxt : strIncludes x "/temp/" = false) :
    x ∈ (publishImages env p store fm).2.1 := by
  unfold publishImages
  by_cases hlen : p.imagePublicIds.length > 0
  · rw [if_pos hlen]
    have hmem := pubImgs_foldl_store_mem env p p.imagePublicIds x hxt ([], [], fm, store) hx
    rcases hfold : p.imagePublicIds.foldl (pubImgStep env p) ([], [], fm, store)
      with ⟨mi, mu, fm1, store1⟩
    rw [hfold] at hmem
    dsimp only
    by_cases hf : fm1 = true
    · rw [if_pos hf]
      exact hmem
    · rw [if_neg hf]
      exact hmem
  · rw [if_neg hlen]
    exact hx

/-- An image whose move does not succeed keeps its id in the project's list. -/
theorem publishImages_mem_keep (env : StoreEnv) (p : Project) (store : List String)
    (fm : Bool) (i : String) (hi : i ∈ p.imagePublicIds)
    (hm : env.moveOk i = false) :
    i ∈ (publishImages env p store fm).1.imagePublicIds := by
  unfold publishImages
  have hlen : p.imagePublicIds.length > 0 :=
    List.length_pos.mpr (List.ne_nil_of_mem hi)
  rw [if_pos hlen]
  have hids := pubImgs_foldl_ids env p p.imagePublicIds ([], [], fm, store)
  rcases hfold : p.imagePublicIds.foldl (pubImgStep env p) ([], [], fm, store)
    with ⟨mi, mu, fm1, store1⟩
  rw [hfold] at hids
  have hmi : mi = p.imagePublicIds.map (fun j =>
      if strIncludes j "/temp/" = true ∧ env.moveOk j = true then
        movedId j (projFolder p.id "images")
      else j) := by simpa using hids
  dsimp only
  by_cases hf : fm1 = true
  · rw [if_pos hf]
    dsimp only
    rw [hmi]
    refine List.mem_map.mpr ⟨i, hi, ?_⟩
    dsimp only
    rw [if_neg]
    rintro ⟨-, hmo⟩
    rw [hm] at hmo
    exact Bool.noConfusion hmo
  · rw [if_neg hf]
    exact hi

/-- A staged image whose move succeeds has its moved id in the project's
final image list. -/
theorem publishImages_moved (env : StoreEnv) (p : Project) (store : List String)
    (fm : Bool) (i : String) (hi : i ∈ p.imagePublicIds)
    (hst : strIncludes i "/temp/" = true) (hok : env.moveOk i = true) :
    movedId i (projFolder p.id "images") ∈ (publishImages env p store fm).1.imagePublicIds := by
  unfold publishImages
  have hlen : p.imagePublicIds.length > 0 :=
    List.length_pos.mpr (List.ne_nil_of_mem hi)
  rw [if_pos hlen]
  have hids := pubImgs_foldl_ids env p p.imagePublicIds ([], [], fm, store)
  have hflag := pubImgs_foldl_flag_of_moved env p p.imagePublicIds i hst hok
    ([], [], fm, store) hi
  rcases hfold : p.imagePublicIds.foldl (pubImgStep env p) ([], [], fm, store)
    with ⟨mi, mu, fm1, store1⟩
  rw [hfold] at hids hflag
  have hmi : mi = p.imagePublicIds.map (fun j =>
      if strIncludes j "/temp/" = true ∧ env.moveOk j = true then
        movedId j (projFolder p.id "images")
      else j) := by simpa using hids
  have hf : fm1 = true := hflag
  dsimp only
  rw [if_pos hf]
  dsimp only
  rw [hmi]
  refine List.mem_map.mpr ⟨i, hi, ?_⟩
  dsimp only
  rw [if_pos ⟨hst, hok⟩]

/-- A staged image whose move succeeds has its moved id in the images block's
final storage, provided the moved id is itself no staging id. -/
theorem publishImages_store_of_moved (env : StoreEnv) (p : Project) (store : List String)
    (fm : Bool) (i : String) (hi : i ∈ p.imagePublicIds)
    (hst : strIncludes i "/temp/" = true) (hok : env.moveOk i = true)
    (hnt : strIncludes (movedId i (projFolder p.id "images")) "/temp/" = false) :
    movedId i (projFolder p.id "images") ∈ (publishImages env p store fm).2.1 := by
  unfold publishImages
  have hlen : p.imagePublicIds.length > 0 :=
    List.length_pos.mpr (List.ne_nil_of_mem hi)
  rw [if_pos hlen]
  have hmem := pubImgs_foldl_store_of_moved env p p.imagePublicIds i hst hok hnt
    ([], [], fm, store) hi
  rcases hfold : p.imagePublicIds.foldl (pubImgStep env p) ([], [], fm, store)
    with ⟨mi, mu, fm1, store1⟩
  rw [hfold] at hmem
  dsimp only
  by_cases hf : fm1 = true
  · rw [if_pos hf]
    exact hmem
  · rw [if_neg hf]
    exact hmem

/-- Claim C6 (corrected, amended part): publishProject checks no status
precondition at all: whatever the status of the found project, the operation
succeeds, sets status to published and stamps the publish time. -/
theorem publishProject_always_publishes (env : StoreEnv) (p : Project) (store : List String) :
    (publishProject env p store).1.status = PStatus.published ∧
    (publishProject env p store).1.publishedAt = some env.now := by
  simp only [publishProject]
  rw [(publishDoc_frame env _ _ _).1, (publishCode_frame env _ _ _).1,
    (publishImages_frame env _ _ _).1, (publishIcon_frame env _ _).1,
    (publishDoc_frame env _ _ _).2.1, (publishCode_frame env _ _ _).2.1,
    (publishImages_frame env _ _ _).2.1, (publishIcon_frame env _ _).2.1]
  exact ⟨rfl, rfl⟩

/-- Claim C6 counterexample: a project whose status is rejected (not
pending) is published anyway; no InvalidState failure exists on this path
and the status does not stay unchanged. -/
theorem publishProject_ignores_status_counterexample :
    c6Proj.status = PStatus.rejected ∧
    (publishProject c1Env c6Proj []).1.status = PStatus.published := by decide

/-- Claim C1 (corrected, amended part): whichever individual asset move fails
during publishProject, the failure is swallowed per asset and the publication
still commits. Universally over environment, project and storage: the status
ends up published with the publish time stamped; a staged icon, image, code
or doc asset whose move fails keeps its staging handle in the document; a
staged asset whose move succeeds has its new permanent handle recorded in the
document, and that handle remains in final storage (for the non-final blocks
under the freshness proviso that the permanent handle is itself no staging
id); nothing is reversed. -/
theorem publishProject_commits_despite_move_failure (env : StoreEnv) (p : Project)
    (store : List String) :
    (publishProject env p store).1.status = PStatus.published ∧
    (publishProject env p store).1.publishedAt = some env.now ∧
    (∀ ic, p.iconPublicId = some ic → strIncludes ic "/temp/" = true →
      env.moveOk ic = false →
      (publishProject env p store).1.iconPublicId = some ic) ∧
    (∀ ic, p.iconPublicId = some ic → strIncludes ic "/temp/" = true →
      env.moveOk ic = true →
      (publishProject env p store).1.iconPublicId =
        some (movedId ic (projFolder p.id "icons")) ∧
      (strIncludes (movedId ic (projFolder p.id "icons")) "/temp/" = false →
        movedId ic (projFolder p.id "icons") ∈ (publishProject env p store).2)) ∧
    (∀ i, i ∈ p.imagePublicIds → strIncludes i "/temp/" = true →
      env.moveOk i = false →
      i ∈ (publishProject env p store).1.imagePublicIds) ∧
    (∀ i, i ∈ p.imagePublicIds → strIncludes i "/temp/" = true →
      env.moveOk i = true →
      movedId i (projFolder p.id "images") ∈
        (publishProject env p store).1.imagePublicIds ∧
      (strIncludes (movedId i (projFolder p.id "images")) "/temp/" = false →
        movedId i (projFolder p.id "images") ∈ (publishProject env p store).2)) ∧
    (∀ c, p.files.code = some c → strIncludes c.publicId "/temp/" = true →
      env.moveOk c.publicId = false →
      (publishProject env p store).1.files.code = some c) ∧
    (∀ c, p.files.code = some c → strIncludes c.publicId "/temp/" = true →
      env.moveOk c.publicId = true →
      (publishProject env p store).1.files.code.map StoredFile.publicId =
        some (movedId c.publicId (projFolder p.id "code")) ∧
      (strIncludes (movedId c.publicId (projFolder p.id "code")) "/temp/" = false →
        movedId c.publicId (projFolder p.id "code") ∈ (publishProject env p store).2)) ∧
    (∀ dd, p.files.docPdf = some dd → strIncludes dd.publicId "/temp/" = true →
      env.moveOk dd.publicId = false →
      (publishProject env p store).1.files.docPdf = some dd) ∧
    (∀ dd, p.files.docPdf = some dd → strIncludes dd.publicId "/temp/" = true →
      env.moveOk dd.publicId = true →
      (publishProject env p store).1.files.docPdf.map StoredFile.publicId =
        some (movedId dd.publicId (projFolder p.id "docs")) ∧
      movedId dd.publicId (projFolder p.id "docs") ∈ (publishProject env p store).2) := by
  simp only [publishProject]
  have hppid : ({ p with status := PStatus.published,
                         publishedAt := some env.now } : Project).id = p.id := rfl
  rcases h1 : publishIcon env ({ p with status := PStatus.published,
                                        publishedAt := some env.now } : Project) store
    with ⟨p1, s1, f1⟩
  have hf1 := publishIcon_frame env ({ p with status := PStatus.published,
                                              publishedAt := some env.now } : Project) store
  rw [h1] at hf1
  dsimp only at hf1
  dsimp only
  rcases h2 : publishImages env p1 s1 f1 with ⟨p2, s2, f2⟩
  have hf2 := publishImages_frame env p1 s1 f1
  rw [h2] at hf2
  dsimp only at hf2
  dsimp only
  rcases h3 : publishCode env p2 s2 f2 with ⟨p3, s3, f3⟩
  have hfc := publishCode_frame env p2 s2 f2
  have hfcim := publishCode_frame_images env p2 s2 f2
  rw [h3] at hfc hfcim
  dsimp only at hfc hfcim
  dsimp only
  rcases h4 : publishDoc env p3 s3 f3 with ⟨p4, s4, f4⟩
  have hfd := publishDoc_frame env p3 s3 f3
  have hfdim := publishDoc_frame_images env p3 s3 f3
  rw [h4] at hfd hfdim
  dsimp only at hfd hfdim
  dsimp only
  have hid1 : p1.id = p.id := hf1.2.2.2.2
  have hid2 : p2.id = p.id := hf2.2.2.2.2.trans hid1
  have hid3 : p3.id = p.id := hfc.2.2.2.2.trans hid2
  refine ⟨?_, ?_, ?_, ?_, ?_, ?_, ?_, ?_, ?_, ?_⟩
  · exact hfd.1.trans (hfc.1.trans (hf2.1.trans hf1.1))
  · exact hfd.2.1.trans (hfc.2.1.trans (hf2.2.1.trans hf1.2.1))
  · intro ic hic hstag hmf
    have hic' : ({ p with status := PStatus.published,
                          publishedAt := some env.now } : Project).iconPublicId =
        some ic := hic
    have he := publishIcon_fail env _ store ic hic' hstag hmf
    rw [h1] at he
    injection he with e1 e2
    rw [hfd.2.2.1, hfc.2.2.1, hf2.2.2.2.1, e1]
    exact hic'
  · intro ic hic hstag hmo
    have hic' : ({ p with status := PStatus.published,
                          publishedAt := some env.now } : Project).iconPublicId =
        some ic := hic
    have hmk := publishIcon_moveOk env _ store ic hic' hstag hmo
    rw [h1, hppid] at hmk
    dsimp only at hmk
    constructor
    · rw [hfd.2.2.1, hfc.2.2.1, hf2.2.2.2.1]
      exact hmk.1
    · intro hnt
      have m1 : movedId ic (projFolder p.id "icons") ∈ s1 := by
        rw [hmk.2]
        exact List.mem_cons_self _ _
      have m2 := publishImages_store_mem env p1 s1 f1 _ m1 hnt
      rw [h2] at m2
      have m3 := publishCode_store_mem env p2 s2 f2 _ m2 hnt
      rw [h3] at m3
      have m4 := publishDoc_store_mem env p3 s3 f3 _ m3 hnt
      rw [h4] at m4
      exact m4
  · intro i hi hstag hmf
    have hi1 : i ∈ p1.imagePublicIds := by
      rw [hf1.2.2.2.1]
      exact hi
    have hk := publishImages_mem_keep env p1 s1 f1 i hi1 hmf
    rw [h2] at hk
    rw [hfdim, hfcim]
    exact hk
  · intro i hi hstag hmo
    have hi1 : i ∈ p1.imagePublicIds := by
      rw [hf1.2.2.2.1]
      exact hi
    constructor
    · have hmv := publishImages_moved env p1 s1 f1 i hi1 hstag hmo
      rw [h2, hid1] at hmv
      rw [hfdim, hfcim]
      exact hmv
    · intro hnt
      have hnt1 : strIncludes (movedId i (projFolder p1.id "images")) "/temp/" = false := by
        rw [hid1]
        exact hnt
      have m2 := publishImages_store_of_moved env p1 s1 f1 i hi1 hstag hmo hnt1
      rw [h2, hid1] at m2
      have m3 := publishCode_store_mem env p2 s2 f2 _ m2 hnt
      rw [h3] at m3
      have m4 := publishDoc_store_mem env p3 s3 f3 _ m3 hnt
      rw [h4] at m4
      exact m4
  · intro c hc hstag hmf
    have hc2 : p2.files.code = some c := by
      rw [hf2.2.2.1, hf1.2.2.1]
      exact hc
    have he := publishCode_fail env p2 s2 f2 c hc2 hstag hmf
    rw [h3] at he
    injection he with e1 e2
    rw [hfd.2.2.2.1, e1]
    exact hc2
  · intro c hc hstag hmo
    have hc2 : p2.files.code = some c := by
      rw [hf2.2.2.1, hf1.2.2.1]
      exact hc
    rcases publishCode_moveOk env p2 s2 f2 c hc2 hstag hmo with ⟨c2, he, hcid⟩
    rw [h3, hid2] at he
    injection he with e1 e2
    injection e2 with e2 e3
    constructor
    · rw [hfd.2.2.2.1, e1]
      show some c2.publicId = some (movedId c.publicId (projFolder p.id "code"))
      rw [hcid, hid2]
    · intro hnt
      have m3 : movedId c.publicId (projFolder p.id "code") ∈ s3 := by
        rw [e2]
        exact List.mem_cons_self _ _
      have m4 := publishDoc_store_mem env p3 s3 f3 _ m3 hnt
      rw [h4] at m4
      exact m4
  · intro dd hd hstag hmf
    have hd3 : p3.files.docPdf = some dd := by
      rw [hfc.2.2.2.1, hf2.2.2.1, hf1.2.2.1]
      exact hd
    have he := publishDoc_fail env p3 s3 f3 dd hd3 hstag hmf
    rw [h4] at he
    injection he with e1 e2
    rw [e1]
    exact hd3
  · intro dd hd hstag hmo
    have hd3 : p3.files.docPdf = some dd := by
      rw [hfc.2.2.2.1, hf2.2.2.1, hf1.2.2.1]
      exact hd
    rcases publishDoc_moveOk env p3 s3 f3 dd hd3 hstag hmo with ⟨c2, he, hcid⟩
    rw [h4, hid3] at he
    injection he with e1 e2
    injection e2 with e2 e3
    constructor
    · rw [e1]
      show some c2.publicId = some (movedId dd.publicId (projFolder p.id "docs"))
      rw [hcid, hid3]
    · rw [e2]
      exact List.mem_cons_self _ _

/-- Claim C1 counterexample: on a pending project whose icon move fails while
its code move succeeds, the transition commits anyway: the status ends up
published, not pending, and storage is not restored to its prior contents
(the moved code archive stays at its new location). -/
theorem publishProject_no_rollback_counterexample :
    c1Proj.status = PStatus.pending ∧
    strIncludes "softstore/temp/icons/a.png" "/temp/" = true ∧
    c1Env.moveOk "softstore/temp/icons/a.png" = false ∧
    c1Env.moveOk "softstore/temp/code/c.zip" = true ∧
    (publishProject c1Env c1Proj c1Store).1.status = PStatus.published ∧
    (publishProject c1Env c1Proj c1Store).2 ≠ c1Store := by decide

/-! ## Trace lemmas for the approveDraft step functions -/

/-- The icon step emits only move calls; when it returns ok every emitted
move succeeded and a draft-staging icon got a successful move. -/
theorem approveIconMove_spec (env : StoreEnv) (pid : String) (di : Option String)
    (p : Project) (store : List String) :
    moveEvOnly (approveIconMove env pid di p store).2.2 ∧
    ((∃ q, (approveIconMove env pid di p store).1 = Except.ok q) →
      movesAllTrue (approveIconMove env pid di p store).2.2 ∧
      ∀ s ∈ updatesOnly di, StEv.move s true ∈ (approveIconMove env pid di p store).2.2) := by
  unfold approveIconMove updatesOnly moveEvOnly movesAllTrue
  cases di with
  | none => simp
  | some ic =>
    dsimp only
    by_cases hin : strIncludes ic "/updates/" = true
    · rw [if_pos hin]
      by_cases hmo : env.moveOk ic = true
      · rw [if_pos hmo]
        simp [hin]
      · rw [if_neg hmo]
        simp
    · rw [if_neg hin]
      simp [hin]

/-- The code step emits only move calls; when it returns ok every emitted
move succeeded and a draft-staging code archive got a successful move. -/
theorem approveCodeMove_spec (env : StoreEnv) (pid : String) (dc dcn : Option String)
    (p : Project) (store : List String) :
    moveEvOnly (approveCodeMove env pid dc dcn p store).2.2 ∧
    ((∃ q, (approveCodeMove env pid dc dcn p store).1 = Except.ok q) →
      movesAllTrue (approveCodeMove env pid dc dcn p store).2.2 ∧
      ∀ s ∈ updatesOnly dc,
        StEv.move s true ∈ (approveCodeMove env pid dc dcn p store).2.2) := by
  unfold approveCodeMove updatesOnly moveEvOnly movesAllTrue
  cases dc with
  | none => simp
  | some c =>
    dsimp only
    by_cases hin : strIncludes c "/updates/" = true
    · rw [if_pos hin]
      by_cases hmo : env.moveOk c = true
      · rw [if_pos hmo]
        simp [hin]
      · rw [if_neg hmo]
        simp
    · rw [if_neg hin]
      simp [hin]

/-- The doc step emits only move calls; when it returns ok every emitted
move succeeded and a draft-staging doc got a successful move. -/
theorem approveDocMove_spec (env : StoreEnv) (pid : String) (dd ddn : Option String)
    (p : Project) (store : List String) :
    moveEvOnly (approveDocMove env pid dd ddn p store).2.2 ∧
    ((∃ q, (approveDocMove env pid dd ddn p store).1 = Except.ok q) →
      movesAllTrue (approveDocMove env pid dd ddn p store).2.2 ∧
      ∀ s ∈ updatesOnly dd,
        StEv.move s true ∈ (approveDocMove env pid dd ddn p store).2.2) := by
  unfold approveDocMove updatesOnly moveEvOnly movesAllTrue
  cases dd with
  | none => simp
  | some c =>
    dsimp only
    by_cases hin : strIncludes c "/updates/" = true
    · rw [if_pos hin]
      by_cases hmo : env.moveOk c = true
      · rw [if_pos hmo]
        simp [hin]
      · rw [if_neg hmo]
        simp
    · rw [if_neg hin]
      simp [hin]

/-- The images loop emits only move calls; when it returns ok every emitted
move succeeded and every pending draft-staging image got a successful move. -/
theorem moveImgsA_spec (env : StoreEnv) (pid : String) (p : Project) (di : List String) :
    ∀ pending store,
      moveEvOnly (moveImgsA env pid p di pending store).2.2 ∧
      ((∃ v, (moveImgsA env pid p di pending store).1 = Except.ok v) →
        movesAllTrue (moveImgsA env pid p di pending store).2.2 ∧
        ∀ s ∈ pending, strIncludes s "/updates/" = true →
          StEv.move s true ∈ (moveImgsA env pid p di pending store).2.2) := by
  intro pending
  induction pending with
  | nil =>
    intro store
    simp [moveImgsA, moveEvOnly, movesAllTrue]
  | cons imgId rest ih =>
    intro store
    by_cases hin : strIncludes imgId "/updates/" = true
    · by_cases hmo : env.moveOk imgId = true
      · rcases hrec : moveImgsA env pid p di rest
            (movedId imgId (projFolder pid "images") :: store.erase imgId)
          with ⟨r2, st2, tr2⟩
        have hspec := ih (movedId imgId (projFolder pid "images") :: store.erase imgId)
        rw [hrec] at hspec
        cases r2 with
        | ok v =>
          rcases v with ⟨mi, mu⟩
          have hcur : moveImgsA env pid p di (imgId :: rest) store =
              (Except.ok (movedId imgId (projFolder pid "images") :: mi,
                match env.info (movedId imgId (projFolder pid "images")) with
                | some u => u :: mu
                | none => mu), st2, StEv.move imgId true :: tr2) := by
            simp only [moveImgsA, if_pos hin, if_pos hmo, hrec]
          rw [hcur]
          refine ⟨?_, ?_⟩
          · intro e he
            rcases List.mem_cons.mp he with h | h
            · exact ⟨imgId, true, h⟩
            · exact hspec.1 e h
          · intro _
            have hok := hspec.2 ⟨(mi, mu), rfl⟩
            refine ⟨?_, ?_⟩
            · intro s b hmem
              rcases List.mem_cons.mp hmem with h | h
              · cases h
                rfl
              · exact hok.1 s b h
            · intro s hs hsin
              rcases List.mem_cons.mp hs with h | h
              · rw [h]
                exact List.mem_cons_self _ _
              · exact List.mem_cons_of_mem _ (hok.2 s h hsin)
        | error e =>
          have hcur : moveImgsA env pid p di (imgId :: rest) store =
              (Except.error e, st2, StEv.move imgId true :: tr2) := by
            simp only [moveImgsA, if_pos hin, if_pos hmo, hrec]
          rw [hcur]
          refine ⟨?_, ?_⟩
          · intro ev he
            rcases List.mem_cons.mp he with h | h
            · exact ⟨imgId, true, h⟩
            · exact hspec.1 ev h
          · rintro ⟨v, hv⟩
            simp at hv
      · have hcur : moveImgsA env pid p di (imgId :: rest) store =
            (Except.error "move failed", store, [StEv.move imgId false]) := by
          simp only [moveImgsA, if_pos hin, if_neg hmo]
        rw [hcur]
        refine ⟨?_, ?_⟩
        · intro e he
          rcases List.mem_cons.mp he with h | h
          · exact ⟨imgId, false, h⟩
          · simp at h
        · rintro ⟨v, hv⟩
          simp at hv
    · rcases hrec : moveImgsA env pid p di rest store with ⟨r2, st2, tr2⟩
      have hspec := ih store
      rw [hrec] at hspec
      cases r2 with
      | ok v =>
        rcases v with ⟨mi, mu⟩
        have hcur : moveImgsA env pid p di (imgId :: rest) store =
            (Except.ok (imgId :: mi,
              (p.imageUrls.getD (di.indexOf imgId) "") :: mu), st2, tr2) := by
          simp only [moveImgsA, if_neg hin, hrec]
        rw [hcur]
        refine ⟨hspec.1, ?_⟩
        intro _
        have hok := hspec.2 ⟨(mi, mu), rfl⟩
        refine ⟨hok.1, ?_⟩
        intro s hs hsin
        rcases List.mem_cons.mp hs with h | h
        · rw [h] at hsin
          exact absurd hsin hin
        · exact hok.2 s h hsin
      | error e =>
        have hcur : moveImgsA env pid p di (imgId :: rest) store =
            (Except.error e, st2, tr2) := by
          simp only [moveImgsA, if_neg hin, hrec]
        rw [hcur]
        refine ⟨hspec.1, ?_⟩
        rintro ⟨v, hv⟩
        simp at hv

/-- The images block emits only move calls; when it returns ok every emitted
move succeeded and every draft-staging image got a successful move. -/
theorem approveImagesMove_spec (env : StoreEnv) (pid : String) (di : List String)
    (p : Project) (store : List String) :
    moveEvOnly (approveImagesMove env pid di p store).2.2 ∧
    ((∃ q, (approveImagesMove env pid di p store).1 = Except.ok q) →
      movesAllTrue (approveImagesMove env pid di p store).2.2 ∧
      ∀ s ∈ di, strIncludes s "/updates/" = true →
        StEv.move s true ∈ (approveImagesMove env pid di p store).2.2) := by
  unfold approveImagesMove
  by_cases hl : di.length > 0
  · rw [if_pos hl]
    rcases hrec : moveImgsA env pid p di di store with ⟨r2, st2, tr2⟩
    have hspec := moveImgsA_spec env pid p di di store
    rw [hrec] at hspec
    cases r2 with
    | ok v =>
      rcases v with ⟨mi, mu⟩
      refine ⟨hspec.1, ?_⟩
      intro _
      exact hspec.2 ⟨(mi, mu), rfl⟩
    | error e =>
      refine ⟨hspec.1, ?_⟩
      rintro ⟨q, hq⟩
      simp at hq
  · rw [if_neg hl]
    refine ⟨by simp [moveEvOnly], ?_⟩
    intro _
    refine ⟨by simp [movesAllTrue], ?_⟩
    intro s hs hsin
    have hnil : di = [] := List.length_eq_zero.mp (by omega)
    rw [hnil] at hs
    simp at hs

/-! ## Branch equations for approveDraft -/

/-- approveDraft on a non-published project fails before any storage call. -/
theorem approveDraft_eq_status_err (env : StoreEnv) (p : Project) (store : List String)
    (hs : p.status ≠ PStatus.published) :
    approveDraft env p store =
      (Except.error "Solo se pueden aprobar borradores de proyectos publicados", store, []) := by
  unfold approveDraft
  rw [if_pos hs]

/-- approveDraft with no draft shadow fails before any storage call. -/
theorem approveDraft_eq_no_draft (env : StoreEnv) (p : Project) (store : List String)
    (hs : ¬ p.status ≠ PStatus.published) (hdr : p.draft = none) :
    approveDraft env p store =
      (Except.error "No hay borrador pendiente para este proyecto", store, []) := by
  unfold approveDraft
  rw [if_neg hs, hdr]

/-- approveDraft with a shadow but no pending draft status fails before any
storage call. -/
theorem approveDraft_eq_not_pending (env : StoreEnv) (p : Project) (store : List String)
    (d : DraftChanges)
    (hs : ¬ p.status ≠ PStatus.published) (hdr : p.draft = some d)
    (hd : p.draftStatus ≠ DraftSt.pending) :
    approveDraft env p store =
      (Except.error "No hay borrador pendiente para este proyecto", store, []) := by
  unfold approveDraft
  rw [if_neg hs, hdr]
  dsimp only
  rw [if_pos hd]

/-- approveDraft when the icon move throws: abort with the move error, the
trace being the icon step trace. -/
theorem approveDraft_eq_icon_err (env : StoreEnv) (p : Project) (store : List String)
    (d : DraftChanges) (e : String) (sE : List String) (trE : List StEv)
    (hs : ¬ p.status ≠ PStatus.published) (hdr : p.draft = some d)
    (hd : ¬ p.draftStatus ≠ DraftSt.pending)
    (h1 : approveIconMove env p.id d.iconPublicId (applyDraft p) store =
      (Except.error e, sE, trE)) :
    approveDraft env p store =
      (Except.error "No se pudieron mover los archivos del borrador", sE, trE) := by
  unfold approveDraft
  rw [if_neg hs, hdr]
  dsimp only
  rw [if_neg hd, h1]

/-- approveDraft when an image move throws: abort with the move error after
the icon step. -/
theorem approveDraft_eq_images_err (env : StoreEnv) (p : Project) (store : List String)
    (d : DraftChanges) (p1 : Project) (s1 : List String) (tr1 : List StEv)
    (e : String) (sE : List String) (trE : List StEv)
    (hs : ¬ p.status ≠ PStatus.published) (hdr : p.draft = some d)
    (hd : ¬ p.draftStatus ≠ DraftSt.pending)
    (h1 : approveIconMove env p.id d.iconPublicId (applyDraft p) store =
      (Except.ok p1, s1, tr1))
    (h2 : approveImagesMove env p.id (d.imagePublicIds.getD []) p1 s1 =
      (Except.error e, sE, trE)) :
    approveDraft env p store =
      (Except.error "No se pudieron mover los archivos del borrador", sE, tr1 ++ trE) := by
  unfold approveDraft
  rw [if_neg hs, hdr]
  dsimp only
  rw [if_neg hd, h1]
  dsimp only
  rw [h2]

/-- approveDraft when the code move throws: abort with the move error after
the icon and images steps. -/
theorem approveDraft_eq_code_err (env : StoreEnv) (p : Project) (store : List String)
    (d : DraftChanges) (p1 : Project) (s1 : List String) (tr1 : List StEv)
    (p2 : Project) (s2 : List String) (tr2 : List StEv)
    (e : String) (sE : List String) (trE : List StEv)
    (hs : ¬ p.status ≠ PStatus.published) (hdr : p.draft = some d)
    (hd : ¬ p.draftStatus ≠ DraftSt.pending)
    (h1 : approveIconMove env p.id d.iconPublicId (applyDraft p) store =
      (Except.ok p1, s1, tr1))
    (h2 : approveImagesMove env p.id (d.imagePublicIds.getD []) p1 s1 =
      (Except.ok p2, s2, tr2))
    (h3 : approveCodeMove env p.id
        ((d.files.bind (fun df => df.code)).map (fun c => c.publicId))
        ((d.files.bind (fun df => df.code)).map (fun c => c.fileName)) p2 s2 =
      (Except.error e, sE, trE)) :
    approveDraft env p store =
      (Except.error "No se pudieron mover los archivos del borrador", sE,
        tr1 ++ tr2 ++ trE) := by
  unfold approveDraft
  rw [if_neg hs, hdr]
  dsimp only
  rw [if_neg hd, h1]
  dsimp only
  rw [h2]
  dsimp only
  rw [h3]

/-- approveDraft when the doc move throws: abort with the move error after
the icon, images and code steps. -/
theorem approveDraft_eq_doc_err (env : StoreEnv) (p : Project) (store : List String)
    (d : DraftChanges) (p1 : Project) (s1 : List String) (tr1 : List StEv)
    (p2 : Project) (s2 : List String) (tr2 : List StEv)
    (p3 : Project) (s3 : List String) (tr3 : List StEv)
    (e : String) (sE : List String) (trE : List StEv)
    (hs : ¬ p.status ≠ PStatus.published) (hdr : p.draft = some d)
    (hd : ¬ p.draftStatus ≠ DraftSt.pending)
    (h1 : approveIconMove env p.id d.iconPublicId (applyDraft p) store =
      (Except.ok p1, s1, tr1))
    (h2 : approveImagesMove env p.id (d.imagePublicIds.getD []) p1 s1 =
      (Except.ok p2, s2, tr2))
    (h3 : approveCodeMove env p.id
        ((d.files.bind (fun df => df.code)).map (fun c => c.publicId))
        ((d.files.bind (fun df => df.code)).map (fun c => c.fileName)) p2 s2 =
      (Except.ok p3, s3, tr3))
    (h4 : approveDocMove env p.id
        ((d.files.bind (fun df => df.docPdf)).map (fun c => c.publicId))
        ((d.files.bind (fun df => df.docPdf)).map (fun c => c.fileName)) p3 s3 =
      (Except.error e, sE, trE)) :
    approveDraft env p store =
      (Except.error "No se pudieron mover los archivos del borrador", sE,
        tr1 ++ tr2 ++ tr3 ++ trE) := by
  unfold approveDraft
  rw [if_neg hs, hdr]
  dsimp only
  rw [if_neg hd, h1]
  dsimp only
  rw [h2]
  dsimp only
  rw [h3]
  dsimp only
  rw [h4]

/-- approveDraft when every move succeeded: the superseded old assets are
deleted after all moves, the shadow cleared and the project saved. -/
theorem approveDraft_eq_ok (env : StoreEnv) (p : Project) (store : List String)
    (d : DraftChanges) (p1 : Project) (s1 : List String) (tr1 : List StEv)
    (p2 : Project) (s2 : List String) (tr2 : List StEv)
    (p3 : Project) (s3 : List String) (tr3 : List StEv)
    (p4 : Project) (s4 : List String) (tr4 : List StEv)
    (hs : ¬ p.status ≠ PStatus.published) (hdr : p.draft = some d)
    (hd : ¬ p.draftStatus ≠ DraftSt.pending)
    (h1 : approveIconMove env p.id d.iconPublicId (applyDraft p) store =
      (Except.ok p1, s1, tr1))
    (h2 : approveImagesMove env p.id (d.imagePublicIds.getD []) p1 s1 =
      (Except.ok p2, s2, tr2))
    (h3 : approveCodeMove env p.id
        ((d.files.bind (fun df => df.code)).map (fun c => c.publicId))
        ((d.files.bind (fun df => df.code)).map (fun c => c.fileName)) p2 s2 =
      (Except.ok p3, s3, tr3))
    (h4 : approveDocMove env p.id
        ((d.files.bind (fun df => df.docPdf)).map (fun c => c.publicId))
        ((d.files.bind (fun df => df.docPdf)).map (fun c => c.fileName)) p3 s3 =
      (Except.ok p4, s4, tr4)) :
    approveDraft env p store =
      (Except.ok (clearDraft p4),
       (filesToDeleteApprove d.iconPublicId p.iconPublicId (d.imagePublicIds.getD [])
         p.imagePublicIds ((d.files.bind (fun df => df.code)).map (fun c => c.publicId))
         (p.files.code.map (fun c => c.publicId))
         ((d.files.bind (fun df => df.docPdf)).map (fun c => c.publicId))
         (p.files.docPdf.map (fun c => c.publicId))).foldl (fun s i => s.erase i) s4,
       tr1 ++ tr2 ++ tr3 ++ tr4 ++
         (filesToDeleteApprove d.iconPublicId p.iconPublicId (d.imagePublicIds.getD [])
           p.imagePublicIds ((d.files.bind (fun df => df.code)).map (fun c => c.publicId))
           (p.files.code.map (fun c => c.publicId))
           ((d.files.bind (fun df => df.docPdf)).map (fun c => c.publicId))
           (p.files.docPdf.map (fun c => c.publicId))).map StEv.del) := by
  unfold approveDraft
  rw [if_neg hs, hdr]
  dsimp only
  rw [if_neg hd, h1]
  dsimp only
  rw [h2]
  dsimp only
  rw [h3]
  dsimp only
  rw [h4]

/-- Claim C2 (confirmed): in every approveDraft execution the storage trace
splits into a prefix of move calls followed only by delete calls; deletes of
superseded live assets happen only when every move call issued succeeded and
every draft-staging replacement asset received a successful move earlier in
the trace; and when any move fails the operation aborts with an error and no
delete call at all appears in the trace. -/
theorem approveDraft_no_delete_before_promotion (env : StoreEnv) (p : Project)
    (store : List String) :
    ∃ ms ds,
      (approveDraft env p store).2.2 = ms ++ ds ∧
      moveEvOnly ms ∧
      (∀ e ∈ ds, ∃ x, e = StEv.del x) ∧
      (ds ≠ [] →
        movesAllTrue ms ∧
        ∀ s ∈ requiredMovesOf p, StEv.move s true ∈ ms) ∧
      ((∃ s, StEv.move s false ∈ (approveDraft env p store).2.2) →
        (∃ msg, (approveDraft env p store).1 = Except.error msg) ∧
        ∀ x, StEv.del x ∉ (approveDraft env p store).2.2) := by
  by_cases hs : p.status ≠ PStatus.published
  · rw [approveDraft_eq_status_err env p store hs]
    exact ⟨[], [], by simp, by simp [moveEvOnly], by simp, by simp, by simp⟩
  · cases hdr : p.draft with
    | none =>
      rw [approveDraft_eq_no_draft env p store hs hdr]
      exact ⟨[], [], by simp, by simp [moveEvOnly], by simp, by simp, by simp⟩
    | some d =>
      by_cases hd : p.draftStatus ≠ DraftSt.pending
      · rw [approveDraft_eq_not_pending env p store d hs hdr hd]
        exact ⟨[], [], by simp, by simp [moveEvOnly], by simp, by simp, by simp⟩
      · rcases h1e : approveIconMove env p.id d.iconPublicId (applyDraft p) store
          with ⟨r1, s1, tr1⟩
        have sp1 := approveIconMove_spec env p.id d.iconPublicId (applyDraft p) store
        rw [h1e] at sp1
        dsimp only at sp1
        cases r1 with
        | error e =>
          rw [approveDraft_eq_icon_err env p store d e s1 tr1 hs hdr hd h1e]
          refine ⟨tr1, [], by simp, sp1.1, by simp, by simp, ?_⟩
          intro _
          refine ⟨⟨_, rfl⟩, ?_⟩
          intro x hx
          have hx' : StEv.del x ∈ tr1 := hx
          rcases sp1.1 _ hx' with ⟨s, b, hsb⟩
          exact absurd hsb (by simp)
        | ok p1 =>
          rcases h2e : approveImagesMove env p.id (d.imagePublicIds.getD []) p1 s1
            with ⟨r2, s2, tr2⟩
          have sp2 := approveImagesMove_spec env p.id (d.imagePublicIds.getD []) p1 s1
          rw [h2e] at sp2
          dsimp only at sp2
          cases r2 with
          | error e =>
            rw [approveDraft_eq_images_err env p store d p1 s1 tr1 e s2 tr2 hs hdr hd h1e h2e]
            refine ⟨tr1 ++ tr2, [], by simp, ?_, by simp, by simp, ?_⟩
            · intro ev hev
              rcases List.mem_append.mp hev with h | h
              · exact sp1.1 ev h
              · exact sp2.1 ev h
            · intro _
              refine ⟨⟨_, rfl⟩, ?_⟩
              intro x hx
              have hx' : StEv.del x ∈ tr1 ++ tr2 := hx
              rcases List.mem_append.mp hx' with h | h
              · rcases sp1.1 _ h with ⟨s, b, hsb⟩
                exact absurd hsb (by simp)
              · rcases sp2.1 _ h with ⟨s, b, hsb⟩
                exact absurd hsb (by simp)
          | ok p2 =>
            rcases h3e : approveCodeMove env p.id
                ((d.files.bind (fun df => df.code)).map (fun c => c.publicId))
                ((d.files.bind (fun df => df.code)).map (fun c => c.fileName)) p2 s2
              with ⟨r3, s3, tr3⟩
            have sp3 := approveCodeMove_spec env p.id
              ((d.files.bind (fun df => df.code)).map (fun c => c.publicId))
              ((d.files.bind (fun df => df.code)).map (fun c => c.fileName)) p2 s2
            rw [h3e] at sp3
            dsimp only at sp3
            cases r3 with
            | error e =>
              rw [approveDraft_eq_code_err env p store d p1 s1 tr1 p2 s2 tr2 e s3 tr3
                hs hdr hd h1e h2e h3e]
              refine ⟨tr1 ++ tr2 ++ tr3, [], by simp, ?_, by simp, by simp, ?_⟩
              · intro ev hev
                rcases List.mem_append.mp hev with h | h
                · rcases List.mem_append.mp h with h | h
                  · exact sp1.1 ev h
                  · exact sp2.1 ev h
                · exact sp3.1 ev h
              · intro _
                refine ⟨⟨_, rfl⟩, ?_⟩
                intro x hx
                have hx' : StEv.del x ∈ tr1 ++ tr2 ++ tr3 := hx
                rcases List.mem_append.mp hx' with h | h
                · rcases List.mem_append.mp h with h | h
                  · rcases sp1.1 _ h with ⟨s, b, hsb⟩
                    exact absurd hsb (by simp)
                  · rcases sp2.1 _ h with ⟨s, b, hsb⟩
                    exact absurd hsb (by simp)
                · rcases sp3.1 _ h with ⟨s, b, hsb⟩
                  exact absurd hsb (by simp)
            | ok p3 =>
              rcases h4e : approveDocMove env p.id
                  ((d.files.bind (fun df => df.docPdf)).map (fun c => c.publicId))
                  ((d.files.bind (fun df => df.docPdf)).map (fun c => c.fileName)) p3 s3
                with ⟨r4, s4, tr4⟩
              have sp4 := approveDocMove_spec env p.id
                ((d.files.bind (fun df => df.docPdf)).map (fun c => c.publicId))
                ((d.files.bind (fun df => df.docPdf)).map (fun c => c.fileName)) p3 s3
              rw [h4e] at sp4
              dsimp only at sp4
              cases r4 with
              | error e =>
                rw [approveDraft_eq_doc_err env p store d p1 s1 tr1 p2 s2 tr2 p3 s3 tr3
                  e s4 tr4 hs hdr hd h1e h2e h3e h4e]
                refine ⟨tr1 ++ tr2 ++ tr3 ++ tr4, [], by simp, ?_, by simp, by simp, ?_⟩
                · intro ev hev
                  rcases List.mem_append.mp hev with h | h
                  · rcases List.mem_append.mp h with h | h
                    · rcases List.mem_append.mp h with h | h
                      · exact sp1.1 ev h
                      · exact sp2.1 ev h
                    · exact sp3.1 ev h
                  · exact sp4.1 ev h
                · intro _
                  refine ⟨⟨_, rfl⟩, ?_⟩
                  intro x hx
                  have hx' : StEv.del x ∈ tr1 ++ tr2 ++ tr3 ++ tr4 := hx
                  rcases List.mem_append.mp hx' with h | h
                  · rcases List.mem_append.mp h with h | h
                    · rcases List.mem_append.mp h with h | h
                      · rcases sp1.1 _ h with ⟨s, b, hsb⟩
                        exact absurd hsb (by simp)
                      · rcases sp2.1 _ h with ⟨s, b, hsb⟩
                        exact absurd hsb (by simp)
                    · rcases sp3.1 _ h with ⟨s, b, hsb⟩
                      exact absurd hsb (by simp)
                  · rcases sp4.1 _ h with ⟨s, b, hsb⟩
                    exact absurd hsb (by simp)
              | ok p4 =>
                rw [approveDraft_eq_ok env p store d p1 s1 tr1 p2 s2 tr2 p3 s3 tr3 p4 s4 tr4
                  hs hdr hd h1e h2e h3e h4e]
                have hmt : movesAllTrue (tr1 ++ tr2 ++ tr3 ++ tr4) := by
                  intro s b hmem
                  rcases List.mem_append.mp hmem with h | h
                  · rcases List.mem_append.mp h with h | h
                    · rcases List.mem_append.mp h with h | h
                      · exact (sp1.2 ⟨p1, rfl⟩).1 s b h
                      · exact (sp2.2 ⟨p2, rfl⟩).1 s b h
                    · exact (sp3.2 ⟨p3, rfl⟩).1 s b h
                  · exact (sp4.2 ⟨p4, rfl⟩).1 s b h
                refine ⟨tr1 ++ tr2 ++ tr3 ++ tr4,
                  (filesToDeleteApprove d.iconPublicId p.iconPublicId
                    (d.imagePublicIds.getD []) p.imagePublicIds
                    ((d.files.bind (fun df => df.code)).map (fun c => c.publicId))
                    (p.files.code.map (fun c => c.publicId))
                    ((d.files.bind (fun df => df.docPdf)).map (fun c => c.publicId))
                    (p.files.docPdf.map (fun c => c.publicId))).map StEv.del,
                  by simp, ?_, ?_, ?_, ?_⟩
                · intro ev hev
                  rcases List.mem_append.mp hev with h | h
                  · rcases List.mem_append.mp h with h | h
                    · rcases List.mem_append.mp h with h | h
                      · exact sp1.1 ev h
                      · exact sp2.1 ev h
                    · exact sp3.1 ev h
                  · exact sp4.1 ev h
                · intro ev hev
                  rcases List.mem_map.mp hev with ⟨x, _, hxe⟩
                  exact ⟨x, hxe.symm⟩
                · intro _
                  refine ⟨hmt, ?_⟩
                  intro s hsmem
                  rw [requiredMovesOf, hdr] at hsmem
                  rcases List.mem_append.mp hsmem with h | h
                  · rcases List.mem_append.mp h with h | h
                    · rcases List.mem_append.mp h with h | h
                      · exact List.mem_append_left _ (List.mem_append_left _
                          (List.mem_append_left _ ((sp1.2 ⟨p1, rfl⟩).2 s h)))
                      · rcases List.mem_filter.mp h with ⟨hmem2, hdec⟩
                        exact List.mem_append_left _ (List.mem_append_left _
                          (List.mem_append_right _ ((sp2.2 ⟨p2, rfl⟩).2 s hmem2 hdec)))
                    · exact List.mem_append_left _ (List.mem_append_right _
                        ((sp3.2 ⟨p3, rfl⟩).2 s h))
                  · exact List.mem_append_right _ ((sp4.2 ⟨p4, rfl⟩).2 s h)
                · rintro ⟨s0, hmem⟩
                  exfalso
                  have hmem' : StEv.move s0 false ∈ (tr1 ++ tr2 ++ tr3 ++ tr4) ++
                      (filesToDeleteApprove d.iconPublicId p.iconPublicId
                        (d.imagePublicIds.getD []) p.imagePublicIds
                        ((d.files.bind (fun df => df.code)).map (fun c => c.publicId))
                        (p.files.code.map (fun c => c.publicId))
                        ((d.files.bind (fun df => df.docPdf)).map (fun c => c.publicId))
                        (p.files.docPdf.map (fun c => c.publicId))).map StEv.del := hmem
                  rcases List.mem_append.mp hmem' with h | h
                  · have := hmt s0 false h
                    simp at this
                  · rcases List.mem_map.mp h with ⟨x, _, hxe⟩
                    simp at hxe

/-- Witness for claim C1 (amended) at the concrete project whose icon move
fails while its code move succeeds: the publication commits with the publish
time stamped, the icon keeps its staging handle, and the moved code archive
is recorded and remains in storage. -/
theorem publishProject_commits_despite_move_failure_witness :
    (publishProject c1Env c1Proj c1Store).1.status = PStatus.published ∧
    (publishProject c1Env c1Proj c1Store).1.publishedAt = some c1Env.now ∧
    (publishProject c1Env c1Proj c1Store).1.iconPublicId = some "softstore/temp/icons/a.png" ∧
    (publishProject c1Env c1Proj c1Store).1.files.code.map StoredFile.publicId =
      some (movedId "softstore/temp/code/c.zip" (projFolder c1Proj.id "code")) ∧
    movedId "softstore/temp/code/c.zip" (projFolder c1Proj.id "code") ∈
      (publishProject c1Env c1Proj c1Store).2 := by
  have h := publishProject_commits_despite_move_failure c1Env c1Proj c1Store
  refine ⟨h.1, h.2.1, ?_, ?_, ?_⟩
  · exact h.2.2.1 "softstore/temp/icons/a.png" (by decide) (by decide) (by decide)
  · exact (h.2.2.2.2.2.2.2.1 c1CodeFile (by decide) (by decide) (by decide)).1
  · exact (h.2.2.2.2.2.2.2.1 c1CodeFile (by decide) (by decide) (by decide)).2 (by decide)

/-- Membership in the icon chunk of the rejection delete list. -/
theorem mem_rejIconDel (p : Project) (d : DraftChanges) (x : String) :
    x ∈ rejIconDel p d ↔
      d.iconPublicId = some x ∧ x ≠ "" ∧ some x ≠ p.iconPublicId := by
  unfold rejIconDel
  cases hic : d.iconPublicId with
  | none => simp
  | some v =>
    dsimp only
    split
    next hg =>
      simp only [List.mem_singleton]
      constructor
      · intro heq
        subst heq
        exact ⟨rfl, hg.1, hg.2⟩
      · rintro ⟨hv, _, _⟩
        exact (Option.some.inj hv).symm
    next hg =>
      simp only [List.not_mem_nil, false_iff]
      rintro ⟨hv, h1, h2⟩
      cases Option.some.inj hv
      exact hg ⟨h1, h2⟩

/-- Membership in the images chunk of the rejection delete list. -/
theorem mem_rejImagesDel (p : Project) (d : DraftChanges) (x : String) :
    x ∈ rejImagesDel p d ↔
      ∃ l, d.imagePublicIds = some l ∧ x ∈ l ∧ x ∉ p.imagePublicIds := by
  unfold rejImagesDel
  cases him : d.imagePublicIds with
  | none => simp
  | some l =>
    dsimp only
    split
    next hg =>
      simp only [List.mem_filter]
      constructor
      · rintro ⟨hx, hc⟩
        exact ⟨l, rfl, hx, by simpa using hc⟩
      · rintro ⟨l2, hl2, hx, hnc⟩
        cases Option.some.inj hl2
        exact ⟨hx, by simpa using hnc⟩
    next hg =>
      have hl : l = [] := by
        cases l with
        | nil => rfl
        | cons a as => exact absurd (by simp) hg
      subst hl
      simp

/-- Membership in the code chunk of the rejection delete list. -/
theorem mem_rejCodeDel (p : Project) (d : DraftChanges) (x : String) :
    x ∈ rejCodeDel p d ↔
      ∃ df c, d.files = some df ∧ df.code = some c ∧ c.publicId = x ∧
        x ≠ "" ∧ p.files.code.map StoredFile.publicId ≠ some x := by
  unfold rejCodeDel
  cases hdf : d.files with
  | none =>
    simp only [List.not_mem_nil, false_iff]
    rintro ⟨df2, c2, hdf2, _⟩
    exact Option.noConfusion hdf2
  | some df =>
    dsimp only
    cases hc : df.code with
    | none =>
      dsimp only
      simp only [List.not_mem_nil, false_iff]
      rintro ⟨df2, c2, hdf2, hcc, _⟩
      cases Option.some.inj hdf2
      rw [hc] at hcc
      exact Option.noConfusion hcc
    | some c =>
      dsimp only
      split
      next hg =>
        simp only [List.mem_singleton]
        constructor
        · intro heq
          subst heq
          exact ⟨df, c, rfl, hc, rfl, hg.1, hg.2⟩
        · rintro ⟨df2, c2, hdf2, hcc, hpub, _, _⟩
          cases Option.some.inj hdf2
          rw [hc] at hcc
          cases Option.some.inj hcc
          exact hpub.symm
      next hg =>
        simp only [List.not_mem_nil, false_iff]
        rintro ⟨df2, c2, hdf2, hcc, hpub, h1, h2⟩
        cases Option.some.inj hdf2
        rw [hc] at hcc
        cases Option.some.inj hcc
        subst hpub
        exact hg ⟨h1, h2⟩

/-- Membership in the doc chunk of the rejection delete list. -/
theorem mem_rejDocDel (p : Project) (d : DraftChanges) (x : String) :
    x ∈ rejDocDel p d ↔
      ∃ df dd, d.files = some df ∧ df.docPdf = some dd ∧ dd.publicId = x ∧
        x ≠ "" ∧ p.files.docPdf.map StoredFile.publicId ≠ some x := by
  unfold rejDocDel
  cases hdf : d.files with
  | none =>
    simp only [List.not_mem_nil, false_iff]
    rintro ⟨df2, dd2, hdf2, _⟩
    exact Option.noConfusion hdf2
  | some df =>
    dsimp only
    cases hc : df.docPdf with
    | none =>
      dsimp only
      simp only [List.not_mem_nil, false_iff]
      rintro ⟨df2, dd2, hdf2, hcc, _⟩
      cases Option.some.inj hdf2
      rw [hc] at hcc
      exact Option.noConfusion hcc
    | some dd =>
      dsimp only
      split
      next hg =>
        simp only [List.mem_singleton]
        constructor
        · intro heq
          subst heq
          exact ⟨df, dd, rfl, hc, rfl, hg.1, hg.2⟩
        · rintro ⟨df2, dd2, hdf2, hcc, hpub, _, _⟩
          cases Option.some.inj hdf2
          rw [hc] at hcc
          cases Option.some.inj hcc
          exact hpub.symm
      next hg =>
        simp only [List.not_mem_nil, false_iff]
        rintro ⟨df2, dd2, hdf2, hcc, hpub, h1, h2⟩
        cases Option.some.inj hdf2
        rw [hc] at hcc
        cases Option.some.inj hcc
        subst hpub
        exact hg ⟨h1, h2⟩

/-- Membership in the full rejection delete list: exactly the draft asset ids
the corresponding live field does not also reference. -/
theorem mem_filesToDeleteReject (p : Project) (d : DraftChanges) (x : String) :
    x ∈ filesToDeleteReject p d ↔
      (d.iconPublicId = some x ∧ x ≠ "" ∧ some x ≠ p.iconPublicId) ∨
      (∃ l, d.imagePublicIds = some l ∧ x ∈ l ∧ x ∉ p.imagePublicIds) ∨
      (∃ df c, d.files = some df ∧ df.code = some c ∧ c.publicId = x ∧
        x ≠ "" ∧ p.files.code.map StoredFile.publicId ≠ some x) ∨
      (∃ df dd, d.files = some df ∧ df.docPdf = some dd ∧ dd.publicId = x ∧
        x ≠ "" ∧ p.files.docPdf.map StoredFile.publicId ≠ some x) := by
  unfold filesToDeleteReject
  simp only [List.mem_append, mem_rejIconDel, mem_rejImagesDel, mem_rejCodeDel,
    mem_rejDocDel, or_assoc]

/-- Claim C7 (confirmed): on a published project with a pending draft,
rejectDraft with non-blank feedback returns the project with draftStatus
rejected, the trimmed feedback and a rejection timestamp recorded, the draft
shadow and every live field untouched; storage loses exactly the deleted id
list, and an id is deleted iff it is a draft asset id (icon, image, code or
doc) that the corresponding live field does not also reference. -/
theorem rejectDraft_draft_only_deletion (env : StoreEnv) (feedback : String)
    (p : Project) (store : List String) (d : DraftChanges)
    (hf : jsTrim feedback ≠ "")
    (hs : p.status = PStatus.published)
    (hdr : p.draft = some d)
    (hd : p.draftStatus = DraftSt.pending) :
    (rejectDraft env feedback p store).1 =
      Except.ok { p with draftStatus := DraftSt.rejected,
                         draftFeedback := some (jsTrim feedback),
                         draftRejectedAt := some env.now } ∧
    (rejectDraft env feedback p store).2.2 = filesToDeleteReject p d ∧
    (rejectDraft env feedback p store).2.1 =
      (filesToDeleteReject p d).foldl (fun s i => s.erase i) store ∧
    ∀ x, x ∈ (rejectDraft env feedback p store).2.2 ↔
      (d.iconPublicId = some x ∧ x ≠ "" ∧ some x ≠ p.iconPublicId) ∨
      (∃ l, d.imagePublicIds = some l ∧ x ∈ l ∧ x ∉ p.imagePublicIds) ∨
      (∃ df c, d.files = some df ∧ df.code = some c ∧ c.publicId = x ∧
        x ≠ "" ∧ p.files.code.map StoredFile.publicId ≠ some x) ∨
      (∃ df dd, d.files = some df ∧ df.docPdf = some dd ∧ dd.publicId = x ∧
        x ≠ "" ∧ p.files.docPdf.map StoredFile.publicId ≠ some x) := by
  have hs' : ¬(p.status ≠ PStatus.published) := fun h => h hs
  have hd' : ¬(p.draftStatus ≠ DraftSt.pending) := fun h => h hd
  unfold rejectDraft
  rw [if_neg hf, if_neg hs', hdr]
  dsimp only
  rw [if_neg hd']
  dsimp only
  exact ⟨rfl, rfl, rfl, fun x => mem_filesToDeleteReject p d x⟩

/-- Witness for claim C7 at the concrete project with a pending draft. -/
theorem rejectDraft_draft_only_deletion_witness :
    jsTrim "needs better screenshots" ≠ "" ∧
    c7Proj.status = PStatus.published ∧
    c7Proj.draft = some c7Draft ∧
    c7Proj.draftStatus = DraftSt.pending ∧
    (rejectDraft c1Env "needs better screenshots" c7Proj c7Store).1 =
      Except.ok { c7Proj with draftStatus := DraftSt.rejected,
                              draftFeedback := some (jsTrim "needs better screenshots"),
                              draftRejectedAt := some c1Env.now } ∧
    (rejectDraft c1Env "needs better screenshots" c7Proj c7Store).2.2 =
      filesToDeleteReject c7Proj c7Draft := by
  have h := rejectDraft_draft_only_deletion c1Env "needs better screenshots"
    c7Proj c7Store c7Draft (by decide) (by decide) (by decide) (by decide)
  exact ⟨by decide, by decide, by decide, by decide, h.1, h.2.1⟩

/-- The title comparison flag holds iff a truthy differing title was sent. -/
theorem titleChanged_true_iff (body : UpdBody) (p : Project) :
    titleChanged body p = true ↔ ∃ t, body.title = some t ∧ t ≠ "" ∧ t ≠ p.title := by
  unfold titleChanged
  cases h : body.title with
  | none => simp
  | some t =>
    dsimp only
    simp only [decide_eq_true_eq]
    constructor
    · intro hg
      exact ⟨t, rfl, hg.1, hg.2⟩
    · rintro ⟨t2, ht2, h1, h2⟩
      cases Option.some.inj ht2
      exact ⟨h1, h2⟩

/-- The shortDesc comparison flag holds iff a truthy differing value was sent. -/
theorem shortDescChanged_true_iff (body : UpdBody) (p : Project) :
    shortDescChanged body p = true ↔
      ∃ t, body.shortDesc = some t ∧ t ≠ "" ∧ t ≠ p.shortDesc := by
  unfold shortDescChanged
  cases h : body.shortDesc with
  | none => simp
  | some t =>
    dsimp only
    simp only [decide_eq_true_eq]
    constructor
    · intro hg
      exact ⟨t, rfl, hg.1, hg.2⟩
    · rintro ⟨t2, ht2, h1, h2⟩
      cases Option.some.inj ht2
      exact ⟨h1, h2⟩

/-- The longDesc comparison flag holds iff a truthy differing value was sent. -/
theorem longDescChanged_true_iff (body : UpdBody) (p : Project) :
    longDescChanged body p = true ↔
      ∃ t, body.longDesc = some t ∧ t ≠ "" ∧ t ≠ p.longDesc := by
  unfold longDescChanged
  cases h : body.longDesc with
  | none => simp
  | some t =>
    dsimp only
    simp only [decide_eq_true_eq]
    constructor
    · intro hg
      exact ⟨t, rfl, hg.1, hg.2⟩
    · rintro ⟨t2, ht2, h1, h2⟩
      cases Option.some.inj ht2
      exact ⟨h1, h2⟩

/-- The icon comparison flag holds iff a present differing icon id was sent. -/
theorem iconChanged_true_iff (body : UpdBody) (p : Project) :
    iconChanged body p = true ↔
      ∃ v, body.iconPublicId = some v ∧ some v ≠ p.iconPublicId := by
  unfold iconChanged
  cases h : body.iconPublicId with
  | none => simp
  | some v =>
    dsimp only
    simp only [decide_eq_true_eq]
    constructor
    · intro hg
      exact ⟨v, rfl, hg⟩
    · rintro ⟨v2, hv2, h1⟩
      cases Option.some.inj hv2
      exact h1

/-- The images comparison flag holds iff a present differing list was sent. -/
theorem imagesChanged_true_iff (body : UpdBody) (p : Project) :
    imagesChanged body p = true ↔
      ∃ l, body.imagePublicIds = some l ∧ l ≠ p.imagePublicIds := by
  unfold imagesChanged
  cases h : body.imagePublicIds with
  | none => simp
  | some l =>
    dsimp only
    simp only [decide_eq_true_eq]
    constructor
    · intro hg
      exact ⟨l, rfl, hg⟩
    · rintro ⟨l2, hl2, h1⟩
      cases Option.some.inj hl2
      exact h1

/-- The files flag holds iff the body carries a files object with at least one
member, with no comparison against the live values. -/
theorem filesSubmitted_true_iff (body : UpdBody) :
    filesSubmitted body = true ↔
      ∃ bf, body.files = some bf ∧
        (bf.app.isSome = true ∨ bf.code.isSome = true ∨ bf.docPdf.isSome = true) := by
  unfold filesSubmitted
  cases h : body.files with
  | none => simp
  | some bf =>
    dsimp only
    simp only [Bool.or_eq_true, or_assoc]
    constructor
    · intro hg
      exact ⟨bf, rfl, hg⟩
    · rintro ⟨bf2, hbf2, hd⟩
      cases Option.some.inj hbf2
      exact hd

/-- The hasChanges flag, characterized field by field. -/
theorem hasChangesCalc_true_iff (body : UpdBody) (p : Project) :
    hasChangesCalc body p = true ↔
      ((∃ t, body.title = some t ∧ t ≠ "" ∧ t ≠ p.title) ∨
       (∃ t, body.shortDesc = some t ∧ t ≠ "" ∧ t ≠ p.shortDesc) ∨
       (∃ t, body.longDesc = some t ∧ t ≠ "" ∧ t ≠ p.longDesc) ∨
       (∃ v, body.iconPublicId = some v ∧ some v ≠ p.iconPublicId) ∨
       (∃ l, body.imagePublicIds = some l ∧ l ≠ p.imagePublicIds) ∨
       (∃ bf, body.files = some bf ∧
         (bf.app.isSome = true ∨ bf.code.isSome = true ∨ bf.docPdf.isSome = true))) := by
  unfold hasChangesCalc
  simp only [Bool.or_eq_true, titleChanged_true_iff, shortDescChanged_true_iff,
    longDescChanged_true_iff, iconChanged_true_iff, imagesChanged_true_iff,
    filesSubmitted_true_iff, or_assoc]

/-- Claim C8 (amended): the published non-admin branch of updateProject fails
with the no-changes error exactly when no truthy differing text field, no
present differing icon or image list, and no files member at all was
submitted; a present files member counts as a change without comparison to
the live value. On success the returned project keeps every live field, and
stores the computed diff as the draft shadow with draftStatus pending, a
submission timestamp, and cleared rejection feedback. -/
theorem updateProject_published_branch_spec (body : UpdBody) (p : Project) (now : Nat) :
    (updateProjectPublished body p now = Except.error "No se detectaron cambios para guardar" ↔
      ¬((∃ t, body.title = some t ∧ t ≠ "" ∧ t ≠ p.title) ∨
        (∃ t, body.shortDesc = some t ∧ t ≠ "" ∧ t ≠ p.shortDesc) ∨
        (∃ t, body.longDesc = some t ∧ t ≠ "" ∧ t ≠ p.longDesc) ∨
        (∃ v, body.iconPublicId = some v ∧ some v ≠ p.iconPublicId) ∨
        (∃ l, body.imagePublicIds = some l ∧ l ≠ p.imagePublicIds) ∨
        (∃ bf, body.files = some bf ∧
          (bf.app.isSome = true ∨ bf.code.isSome = true ∨ bf.docPdf.isSome = true)))) ∧
    (∀ q, updateProjectPublished body p now = Except.ok q →
      q.title = p.title ∧ q.shortDesc = p.shortDesc ∧ q.longDesc = p.longDesc ∧
      q.iconPublicId = p.iconPublicId ∧ q.iconUrl = p.iconUrl ∧
      q.imagePublicIds = p.imagePublicIds ∧ q.imageUrls = p.imageUrls ∧
      q.files = p.files ∧ q.status = p.status ∧ q.publishedAt = p.publishedAt ∧
      q.draft = some (buildDraft body p) ∧ q.draftStatus = DraftSt.pending ∧
      q.draftSubmittedAt = some now ∧ q.draftFeedback = none ∧
      q.draftRejectedAt = none) := by
  constructor
  · by_cases hc : hasChangesCalc body p = true
    · unfold updateProjectPublished
      rw [if_pos hc]
      constructor
      · intro h
        exact Except.noConfusion h
      · intro hn
        exact (hn ((hasChangesCalc_true_iff body p).mp hc)).elim
    · unfold updateProjectPublished
      rw [if_neg hc]
      constructor
      · intro _
        intro hdisj
        exact hc ((hasChangesCalc_true_iff body p).mpr hdisj)
      · intro _
        rfl
  · intro q hq
    unfold updateProjectPublished at hq
    by_cases hc : hasChangesCalc body p = true
    · rw [if_pos hc] at hq
      cases Except.ok.inj hq
      exact ⟨rfl, rfl, rfl, rfl, rfl, rfl, rfl, rfl, rfl, rfl, rfl, rfl, rfl, rfl, rfl⟩
    · rw [if_neg hc] at hq
      exact Except.noConfusion hq

/-- Counterexample to claim C8 as stated: a body whose only content is a
files.code member identical to the live code archive differs from the live
record in no field, yet the branch does not fail with the no-changes error:
it creates a pending draft whose files map equals the live files map. -/
theorem updateProject_files_no_diff_counterexample :
    c8Body.files = some { app := none, code := some c8File, docPdf := none } ∧
    c8Proj.files.code = some c8File ∧
    c8Body.title = none ∧ c8Body.shortDesc = none ∧ c8Body.longDesc = none ∧
    c8Body.iconPublicId = none ∧ c8Body.imagePublicIds = none ∧
    updateProjectPublished c8Body c8Proj 5 =
      Except.ok { c8Proj with draft := some (buildDraft c8Body c8Proj),
                              draftStatus := DraftSt.pending,
                              draftSubmittedAt := some 5,
                              draftFeedback := none, draftRejectedAt := none } ∧
    (buildDraft c8Body c8Proj).files = some c8Proj.files :=
  ⟨by decide, by decide, by decide, by decide, by decide, by decide, by decide,
    rfl, by decide⟩

/-- Folding erase over a list respects permutation of the start list. -/
theorem foldl_erase_perm (t : List String) :
    ∀ {l₁ l₂ : List String}, List.Perm l₁ l₂ →
      List.Perm (t.foldl (fun s i => s.erase i) l₁) (t.foldl (fun s i => s.erase i) l₂) := by
  induction t with
  | nil => intro l₁ l₂ h; simpa using h
  | cons a t ih =>
    intro l₁ l₂ h
    simp only [List.foldl_cons]
    exact ih (h.erase a)

/-- Erasing every id of l from l.reverse ++ s leaves a permutation of s. -/
theorem foldl_erase_reverse_append_perm (l s : List String) :
    List.Perm (l.foldl (fun a i => a.erase i) (l.reverse ++ s)) s := by
  induction l with
  | nil => simp
  | cons i t ih =>
    have h2 : (t.reverse ++ [i]) ++ s = t.reverse ++ i :: s := by simp
    have h3 : List.Perm (t.reverse ++ i :: s) (i :: (t.reverse ++ s)) := List.perm_middle
    have h4 := h3.erase i
    rw [List.erase_cons_head] at h4
    have h1 : List.Perm (((t.reverse ++ [i]) ++ s).erase i) (t.reverse ++ s) := by
      rw [h2]; exact h4
    simp only [List.reverse_cons, List.foldl_cons]
    exact (foldl_erase_perm t h1).trans ih

/-- A doc threat verdict makes the doc step throw its message, whatever
updates and ids have been accumulated. -/
theorem uploadDocStep_error_of_firstUnsafe (env : CreateEnv) (pid : String)
    (files : CreateFiles) (upd : CreateUpdates) (ids : List String)
    (pre : String) (v : VTScanResult)
    (h : firstUnsafeDoc env files = some (pre, v)) :
    ∃ ids2, uploadDocStep env pid files upd ids =
      Except.error (pre ++ String.intercalate ", " v.threats, ids2) := by
  unfold firstUnsafeDoc at h
  cases hd : files.doc with
  | none =>
    rw [hd] at h
    dsimp only at h
    exact Option.noConfusion h
  | some f =>
    rw [hd] at h
    dsimp only at h
    by_cases hs : (env.scan f.buffer f.originalname).isSafe = true
    · rw [if_pos hs] at h
      exact Option.noConfusion h
    · rw [if_neg hs] at h
      have h2 := Option.some.inj h
      injection h2 with hpre hv
      subst hpre
      subst hv
      refine ⟨ids, ?_⟩
      unfold uploadDocStep
      rw [hd]
      dsimp only
      rw [if_neg hs]

/-- A first code or doc threat verdict makes the code step throw its message. -/
theorem uploadCodeStep_error_of_firstUnsafe (env : CreateEnv) (pid : String)
    (files : CreateFiles) (upd : CreateUpdates) (ids : List String)
    (pre : String) (v : VTScanResult)
    (h : firstUnsafeCode env files = some (pre, v)) :
    ∃ ids2, uploadCodeStep env pid files upd ids =
      Except.error (pre ++ String.intercalate ", " v.threats, ids2) := by
  unfold firstUnsafeCode at h
  cases hc : files.code with
  | none =>
    rw [hc] at h
    dsimp only at h
    have hres := uploadDocStep_error_of_firstUnsafe env pid files upd ids pre v h
    unfold uploadCodeStep
    rw [hc]
    exact hres
  | some g =>
    rw [hc] at h
    dsimp only at h
    by_cases hs : (env.scan g.buffer g.originalname).isSafe = true
    · rw [if_pos hs] at h
      unfold uploadCodeStep
      rw [hc]
      dsimp only
      rw [if_pos hs]
      exact uploadDocStep_error_of_firstUnsafe env pid files _ _ pre v h
    · rw [if_neg hs] at h
      have h2 := Option.some.inj h
      injection h2 with hpre hv
      subst hpre
      subst hv
      refine ⟨ids, ?_⟩
      unfold uploadCodeStep
      rw [hc]
      dsimp only
      rw [if_neg hs]

/-- A first threat verdict makes the app step throw its message. -/
theorem uploadAppStep_error_of_firstUnsafe (env : CreateEnv) (pid : String)
    (files : CreateFiles) (upd : CreateUpdates) (ids : List String)
    (pre : String) (v : VTScanResult)
    (h : firstUnsafeScan env files = some (pre, v)) :
    ∃ ids2, uploadAppStep env pid files upd ids =
      Except.error (pre ++ String.intercalate ", " v.threats, ids2) := by
  unfold firstUnsafeScan at h
  cases ha : files.app with
  | none =>
    rw [ha] at h
    dsimp only at h
    have hres := uploadCodeStep_error_of_firstUnsafe env pid files upd ids pre v h
    unfold uploadAppStep
    rw [ha]
    exact hres
  | some f =>
    rw [ha] at h
    dsimp only at h
    by_cases hs : (env.scan f.buffer f.originalname).isSafe = true
    · rw [if_pos hs] at h
      unfold uploadAppStep
      rw [ha]
      dsimp only
      rw [if_pos hs]
      exact uploadCodeStep_error_of_firstUnsafe env pid files _ _ pre v h
    · rw [if_neg hs] at h
      have h2 := Option.some.inj h
      injection h2 with hpre hv
      subst hpre
      subst hv
      refine ⟨ids, ?_⟩
      unfold uploadAppStep
      rw [ha]
      dsimp only
      rw [if_neg hs]

/-- The upload phase propagates the first threat verdict as its error. -/
theorem uploadPhase_error_of_firstUnsafe (env : CreateEnv) (pid : String)
    (files : CreateFiles) (pre : String) (v : VTScanResult)
    (h : firstUnsafeScan env files = some (pre, v)) :
    ∃ ids2, uploadPhase env pid files =
      Except.error (pre ++ String.intercalate ", " v.threats, ids2) := by
  unfold uploadPhase
  dsimp only
  exact uploadAppStep_error_of_firstUnsafe env pid files _ _ pre v h

/-- Claim C3 (confirmed): when any submitted file's scan reports threats, the
whole creation rolls back: the caller receives the error message carrying the
threat list, storage afterwards is a permutation of storage before the call
(every id uploaded during the request is erased again), and the created
project document does not remain. -/
theorem createProjectWithFiles_scan_rollback (env : CreateEnv) (basic : CreateBody)
    (files : CreateFiles) (store : List String) (pre : String) (v : VTScanResult)
    (h : firstUnsafeScan env files = some (pre, v)) :
    (createProjectWithFiles env basic files store).1 =
      Except.error (pre ++ String.intercalate ", " v.threats) ∧
    List.Perm (createProjectWithFiles env basic files store).2.1 store ∧
    (createProjectWithFiles env basic files store).2.2 = false := by
  obtain ⟨ids2, hup⟩ := uploadPhase_error_of_firstUnsafe env env.newId files pre v h
  unfold createProjectWithFiles
  dsimp only
  rw [hup]
  dsimp only
  exact ⟨rfl, foldl_erase_reverse_append_perm ids2 store, rfl⟩

/-- Witness for claim C3 at the concrete infected-code creation request. -/
theorem createProjectWithFiles_scan_rollback_witness :
    firstUnsafeScan c3Env c3Files = some ("Codigo contiene malware: ", c3Verdict) ∧
    (createProjectWithFiles c3Env c3Body c3Files ["pre"]).1 =
      Except.error ("Codigo contiene malware: " ++
        String.intercalate ", " c3Verdict.threats) ∧
    List.Perm (createProjectWithFiles c3Env c3Body c3Files ["pre"]).2.1 ["pre"] ∧
    (createProjectWithFiles c3Env c3Body c3Files ["pre"]).2.2 = false := by
  have h := createProjectWithFiles_scan_rollback c3Env c3Body c3Files ["pre"]
    "Codigo contiene malware: " c3Verdict (by decide)
  exact ⟨by decide, h.1, h.2.1, h.2.2⟩

end DevHub
